import Mathlib

/-!
Verification of the Taobao search client (`fish_intel_mvp/jobs/crawl_taobao.py`)
and the interactive cookie renewer (`fish_intel_mvp/jobs/refresh_taobao_cookie.py`).

The Python sources are shallowly embedded: pure helper functions become Lean
functions over `String` / `List Char`, the stateful crawl loop becomes explicit
state passing over an environment trace, and Python exceptions become `Except`
values.  Braces inside string literals are written with the escapes \x7b and
\x7d.
-/

namespace FishIntel

/-! ### Python string primitives -/

/-- Characters treated as whitespace by Python's `str.strip` / `\s`
(ASCII subset; the strings handled by this client are ASCII). -/
def isPySpace (c : Char) : Bool :=
  c = ' ' || c = '\t' || c = '\n' || c = '\r' || c = '\x0b' || c = '\x0c'

/-- `str.strip()` on a character list: drop whitespace on both ends. -/
def pyStripList (l : List Char) : List Char :=
  ((l.dropWhile isPySpace).reverse.dropWhile isPySpace).reverse

/-- Python `str.strip()`. -/
def pyStrip (s : String) : String :=
  ⟨pyStripList s.data⟩

/-- `a.startswith(b)` on character lists. -/
def listStartsWith : List Char → List Char → Bool
  | _, [] => true
  | [], _ :: _ => false
  | a :: as, b :: bs => a == b && listStartsWith as bs

/-- Python's `in` operator on strings (`sub in s`), on character lists. -/
def listContainsSub (sub : List Char) : List Char → Bool
  | [] => listStartsWith [] sub
  | c :: rest => listStartsWith (c :: rest) sub || listContainsSub sub rest

/-- Python's substring test `sub in s`. -/
def pyContains (s sub : String) : Bool :=
  listContainsSub sub.data s.data

/-- `sep.join(xs)` for strings. -/
def pyJoin (sep : String) : List String → String
  | [] => ""
  | [x] => x
  | x :: y :: rest => x ++ sep ++ pyJoin sep (y :: rest)

/-! ### Envelope classification (`_ensure_api_success`)

Source (`crawl_taobao.py`):

```
def _ensure_api_success(payload: dict) -> None:
    ret = payload.get("ret")
    if isinstance(ret, list):
        summary = " | ".join(str(x) for x in ret)
    else:
        summary = str(ret or "")
    if "SUCCESS" in summary:
        return
    if "FAIL_SYS_TOKEN_EXOIRED" in summary:
        raise TokenExpiredError(summary)
    if summary:
        raise RuntimeError(f"taobao api failed: \x7bsummary\x7d")
    raise RuntimeError("taobao api failed: missing ret")
```

Per the envelope schema, `ret` is a list of strings when present; an absent
`ret` (Python `None`) falls into the `else` branch where `str(None or "")`
yields `""`. -/

/-- Errors raised by `_ensure_api_success`: the recoverable
`TokenExpiredError` and the generic `RuntimeError` ("ApiFailure"). -/
inductive ApiError where
  | tokenExpired (summary : String)
  | apiFailure (message : String)
deriving DecidableEq, Repr

/-- The `summary` string computed from the `ret` field. -/
def retSummary : Option (List String) → String
  | some xs => pyJoin " | " xs
  | none => ""

/-- `_ensure_api_success`, with exceptions as `Except`. -/
def ensure_api_success (ret : Option (List String)) : Except ApiError Unit :=
  let summary := retSummary ret
  if pyContains summary "SUCCESS" then .ok ()
  else if pyContains summary "FAIL_SYS_TOKEN_EXOIRED" then
    .error (.tokenExpired summary)
  else if summary ≠ "" then .error (.apiFailure ("taobao api failed: " ++ summary))
  else .error (.apiFailure "taobao api failed: missing ret")

/-- C3: ordered classification of the `ret` field: a summary containing the
"SUCCESS" marker is a success; otherwise the "FAIL_SYS_TOKEN_EXOIRED" marker
raises the recoverable `TokenExpired`; otherwise a non-empty summary raises a
generic `ApiFailure`; and a missing/empty `ret` is also a failure. -/
theorem C3_envelope_classification (ret : Option (List String)) :
    (pyContains (retSummary ret) "SUCCESS" = true →
      ensure_api_success ret = .ok ()) ∧
    (pyContains (retSummary ret) "SUCCESS" = false →
      pyContains (retSummary ret) "FAIL_SYS_TOKEN_EXOIRED" = true →
      ensure_api_success ret = .error (.tokenExpired (retSummary ret))) ∧
    (pyContains (retSummary ret) "SUCCESS" = false →
      pyContains (retSummary ret) "FAIL_SYS_TOKEN_EXOIRED" = false →
      retSummary ret ≠ "" →
      ensure_api_success ret =
        .error (.apiFailure ("taobao api failed: " ++ retSummary ret))) ∧
    (retSummary ret = "" →
      ∃ e, ensure_api_success ret = .error (.apiFailure e)) := by
  refine ⟨fun h1 => ?_, fun h1 h2 => ?_, fun h1 h2 h3 => ?_, fun h0 => ?_⟩
  · simp [ensure_api_success, h1]
  · simp [ensure_api_success, h1, h2]
  · simp [ensure_api_success, h1, h2, h3]
  · refine ⟨"taobao api failed: missing ret", ?_⟩
    simp only [ensure_api_success, h0]
    rfl

/-- Witness for C3 at concrete envelopes exercising each branch. -/
theorem C3_envelope_classification_witness :
    ensure_api_success (some ["SUCCESS::ok"]) = .ok () ∧
    ensure_api_success (some ["FAIL_SYS_TOKEN_EXOIRED::expired"]) =
      .error (.tokenExpired "FAIL_SYS_TOKEN_EXOIRED::expired") ∧
    ensure_api_success (some ["FAIL_SYS_SERVICE::other"]) =
      .error (.apiFailure "taobao api failed: FAIL_SYS_SERVICE::other") ∧
    (∃ e, ensure_api_success none = .error (.apiFailure e)) :=
  ⟨(C3_envelope_classification (some ["SUCCESS::ok"])).1 (by decide),
   (C3_envelope_classification (some ["FAIL_SYS_TOKEN_EXOIRED::expired"])).2.1
     (by decide) (by decide),
   (C3_envelope_classification (some ["FAIL_SYS_SERVICE::other"])).2.2.1
     (by decide) (by decide) (by decide),
   (C3_envelope_classification none).2.2.2 (by decide)⟩

/-- C10: the success marker is tested before the expiry marker, so an envelope
whose concatenated `ret` contains both "SUCCESS" and "FAIL_SYS_TOKEN_EXOIRED"
classifies as success and no TokenExpired error is raised. -/
theorem C10_success_checked_before_expiry (ret : Option (List String))
    (hs : pyContains (retSummary ret) "SUCCESS" = true)
    (_hf : pyContains (retSummary ret) "FAIL_SYS_TOKEN_EXOIRED" = true) :
    ensure_api_success ret = .ok () := by
  simp [ensure_api_success, hs]

/-- Witness for C10: an envelope carrying both markers is accepted. -/
theorem C10_success_checked_before_expiry_witness :
    ensure_api_success (some ["FAIL_SYS_TOKEN_EXOIRED::x", "SUCCESS::y"]) = .ok () :=
  C10_success_checked_before_expiry (some ["FAIL_SYS_TOKEN_EXOIRED::x", "SUCCESS::y"])
    (by decide) (by decide)

/-! ### Cookie value extraction (`_extract_cookie_value`)

Source (`crawl_taobao.py`):

```
def _extract_cookie_value(cookie: str, key: str) -> str:
    pattern = rf"(?:^|;\s*)\x7bre.escape(key)\x7d=([^;]+)"
    match = re.search(pattern, cookie)
    return match.group(1).strip() if match else ""
```

`re.search` scans start positions left to right; at each position the
alternation tries `^` (only at position 0) then `;` followed by a greedy,
backtracking `\s*`; the capture `[^;]+` is a greedy nonempty run of
non-`;` characters. -/

/-- Match `key` `=` `[^;]+` at the head of `l`; greedy nonempty capture. -/
def tryKeyMatch (key l : List Char) : Option (List Char) :=
  if listStartsWith l (key ++ ['=']) then
    match (l.drop (key.length + 1)).takeWhile (fun c => c != ';') with
    | [] => none
    | c :: cap => some (c :: cap)
  else none

/-- Match `\s*` `key` `=` `[^;]+` at the head of `l`, trying the longest
whitespace run first (greedy `\s*` with backtracking). -/
def tryAfterWs (key : List Char) : List Char → Option (List Char)
  | [] => tryKeyMatch key []
  | c :: rest =>
    if isPySpace c then
      match tryAfterWs key rest with
      | some v => some v
      | none => tryKeyMatch key (c :: rest)
    else tryKeyMatch key (c :: rest)

/-- Scan `l` left to right for a `;`-boundary match of the pattern. -/
def cookieScan (key : List Char) : List Char → Option (List Char)
  | [] => none
  | c :: rest =>
    if c = ';' then
      match tryAfterWs key rest with
      | some v => some v
      | none => cookieScan key rest
    else cookieScan key rest

/-- `_extract_cookie_value`: first match of `(?:^|;\s*)key=([^;]+)`,
stripped, else `""`. -/
def extract_cookie_value (cookie key : String) : String :=
  match tryKeyMatch key.data cookie.data with
  | some v => pyStrip ⟨v⟩
  | none =>
    match cookieScan key.data cookie.data with
    | some v => pyStrip ⟨v⟩
    | none => ""

/-- `_extract_token_from_cookie_value`: strip, keep the part before the
first `_`, strip again; empty results become `None`. -/
def extract_token_from_cookie_value (value : String) : Option String :=
  let raw := pyStrip value
  if raw = "" then none
  else
    let raw2 :=
      if pyContains raw "_" then pyStrip ⟨raw.data.takeWhile (fun c => c != '_')⟩
      else raw
    if raw2 = "" then none else some raw2

/-- `_extract_token_from_cookie`. -/
def extract_token_from_cookie (cookie : String) : Option String :=
  extract_token_from_cookie_value (extract_cookie_value cookie "_m_h5_tk")

/-! Helper lemmas: a successful match implies the key occurs as a substring. -/

theorem listStartsWith_append_left (l p q : List Char) :
    listStartsWith l (p ++ q) = true → listStartsWith l p = true := by
  induction p generalizing l with
  | nil => intro _; cases l <;> rfl
  | cons a as ih =>
    intro h
    cases l with
    | nil => simp [listStartsWith] at h
    | cons b bs =>
      simp only [List.cons_append, listStartsWith, Bool.and_eq_true] at h ⊢
      exact ⟨h.1, ih bs h.2⟩

theorem contains_of_startsWith (l p : List Char) :
    listStartsWith l p = true → listContainsSub p l = true := by
  intro h
  cases l with
  | nil =>
    cases p with
    | nil => rfl
    | cons a as => simp [listStartsWith] at h
  | cons c rest => simp only [listContainsSub, Bool.or_eq_true]; exact Or.inl h

theorem contains_cons_of_contains (p : List Char) (c : Char) (l : List Char) :
    listContainsSub p l = true → listContainsSub p (c :: l) = true := by
  intro h
  simp only [listContainsSub, Bool.or_eq_true]
  exact Or.inr h

theorem contains_of_tryKeyMatch (key l v : List Char) :
    tryKeyMatch key l = some v → listContainsSub key l = true := by
  intro h
  unfold tryKeyMatch at h
  by_cases hs : listStartsWith l (key ++ ['=']) = true
  · exact contains_of_startsWith l key (listStartsWith_append_left l key ['='] hs)
  · simp [hs] at h

theorem contains_of_tryAfterWs (key l v : List Char) :
    tryAfterWs key l = some v → listContainsSub key l = true := by
  induction l with
  | nil => exact fun h => contains_of_tryKeyMatch key [] v h
  | cons c rest ih =>
    intro h
    unfold tryAfterWs at h
    by_cases hws : isPySpace c = true
    · simp only [hws, if_true] at h
      cases hrec : tryAfterWs key rest with
      | some w =>
        rw [hrec] at h
        have hw : w = v := by injection h
        exact contains_cons_of_contains key c rest (ih (hw ▸ hrec))
      | none =>
        rw [hrec] at h
        exact contains_of_tryKeyMatch key (c :: rest) v h
    · simp only [hws, if_false] at h
      exact contains_of_tryKeyMatch key (c :: rest) v h

theorem contains_of_cookieScan (key l v : List Char) :
    cookieScan key l = some v → listContainsSub key l = true := by
  induction l with
  | nil => intro h; simp [cookieScan] at h
  | cons c rest ih =>
    intro h
    unfold cookieScan at h
    by_cases hc : c = ';'
    · simp only [hc, if_pos rfl] at h
      cases hrec : tryAfterWs key rest with
      | some w =>
        rw [hrec] at h
        exact contains_cons_of_contains key _ rest (contains_of_tryAfterWs key rest w hrec)
      | none =>
        rw [hrec] at h
        exact contains_cons_of_contains key _ rest (ih h)
    · simp only [if_neg hc] at h
      exact contains_cons_of_contains key c rest (ih h)

/-- C6: the token is the `_m_h5_tk` cookie value truncated before its first
`_`; a value `"ABCDEF_1700000000000"` yields `"ABCDEF"`; a cookie string in
which the token key does not occur yields `none`. -/
theorem C6_token_extraction (cookie : String) :
    (extract_token_from_cookie cookie =
      extract_token_from_cookie_value (extract_cookie_value cookie "_m_h5_tk")) ∧
    (extract_cookie_value cookie "_m_h5_tk" = "ABCDEF_1700000000000" →
      extract_token_from_cookie cookie = some "ABCDEF") ∧
    (pyContains cookie "_m_h5_tk" = false →
      extract_token_from_cookie cookie = none) := by
  refine ⟨rfl, fun hv => ?_, fun hmiss => ?_⟩
  · rw [extract_token_from_cookie, hv]; rfl
  · have hval : extract_cookie_value cookie "_m_h5_tk" = "" := by
      unfold extract_cookie_value
      cases h1 : tryKeyMatch ("_m_h5_tk").data cookie.data with
      | some v =>
        exact absurd (contains_of_tryKeyMatch _ _ _ h1)
          (by rw [pyContains] at hmiss; simp [hmiss])
      | none =>
        cases h2 : cookieScan ("_m_h5_tk").data cookie.data with
        | some v =>
          exact absurd (contains_of_cookieScan _ _ _ h2)
            (by rw [pyContains] at hmiss; simp [hmiss])
        | none => rfl
    rw [extract_token_from_cookie, hval]; rfl

/-- Witness for C6: a cookie carrying the token and one missing it. -/
theorem C6_token_extraction_witness :
    extract_token_from_cookie "cna=xyz; _m_h5_tk=ABCDEF_1700000000000; t=1" =
      some "ABCDEF" ∧
    extract_token_from_cookie "cna=xyz; tracknick=fish" = none :=
  ⟨(C6_token_extraction "cna=xyz; _m_h5_tk=ABCDEF_1700000000000; t=1").2.1 (by decide),
   (C6_token_extraction "cna=xyz; tracknick=fish").2.2 (by decide)⟩

/-! ### JSONP unwrapping (`_parse_jsonp`)

Source (`crawl_taobao.py`):

```
def _parse_jsonp(text: str, callback: str) -> dict:
    body = (text or "").strip()
    if not body:
        raise RuntimeError("empty response body")
    if body.startswith("\x7b"):
        return json.loads(body)
    pattern = rf"^\s*\x7bre.escape(callback)\x7d\((.*)\)\s*;?\s*$"
    match = re.match(pattern, body, flags=re.DOTALL)
    if not match:
        raise RuntimeError(f"unexpected jsonp payload, callback=\x7bcallback\x7d")
    return json.loads(match.group(1))
```

The model returns the JSON text handed to `json.loads`; since `json.loads`
is a function of its input string, two calls receiving equal texts parse to
equal values.  On the stripped body the leading `\s*` can only match the
empty string, so the regex match is: prefix `callback(`, then a greedy
`(.*)` capture up to the last `)` whose remaining suffix matches
`\s*;?\s*$` (such a suffix contains no `)`, so only the last `)` of the
body can qualify). -/

/-- The `\s*;?\s*$` tail allowed after the closing parenthesis. -/
def jsonpTailOk (l : List Char) : Bool :=
  match l.dropWhile isPySpace with
  | [] => true
  | c :: rest => c == ';' && (rest.dropWhile isPySpace).isEmpty

/-- Greedy `(.*)\)` followed by `\s*;?\s*$`: capture up to the last `)`
of `l`, provided the suffix after it is an admissible tail. -/
def jsonpInner (l : List Char) : Option (List Char) :=
  let r := l.reverse
  let t := r.takeWhile (fun c => c != ')')
  match r.drop t.length with
  | ')' :: ri => if jsonpTailOk t.reverse then some ri.reverse else none
  | _ => none

/-- `_parse_jsonp`, returning the JSON text passed to `json.loads`. -/
def parse_jsonp (text callback : String) : Except String String :=
  let body := pyStrip text
  if body = "" then .error "empty response body"
  else if listStartsWith body.data ['\x7b'] then .ok body
  else if listStartsWith body.data (callback.data ++ ['(']) then
    match jsonpInner (body.data.drop (callback.data.length + 1)) with
    | some inner => .ok ⟨inner⟩
    | none => .error ("unexpected jsonp payload, callback=" ++ callback)
  else .error ("unexpected jsonp payload, callback=" ++ callback)

/-- Stripping is the identity on a list with a non-space head and a final
`)`. -/
theorem pyStripList_eq_self_paren (a : Char) (mid : List Char)
    (ha : isPySpace a = false) :
    pyStripList (a :: (mid ++ [')'])) = a :: (mid ++ [')']) := by
  unfold pyStripList
  rw [List.dropWhile_cons, ha]
  simp only [if_false, Bool.false_eq_true]
  rw [List.reverse_cons, List.reverse_append]
  simp only [List.reverse_cons, List.reverse_nil, List.nil_append, List.cons_append,
    List.singleton_append]
  rw [List.dropWhile_cons]
  have hp : isPySpace ')' = false := by decide
  simp [hp]

/-- If two names free of the separator character both sit in front of an
occurrence of it, prefix matching forces them to be equal. -/
theorem name_eq_of_startsWith_sep (sep : Char) (c : List Char) :
    ∀ (n r : List Char), sep ∉ n → sep ∉ c →
      listStartsWith (n ++ sep :: r) (c ++ [sep]) = true → n = c := by
  induction c with
  | nil =>
    intro n r hn _ h
    cases n with
    | nil => rfl
    | cons a as =>
      simp only [List.nil_append, List.cons_append, listStartsWith,
        Bool.and_eq_true, beq_iff_eq] at h
      exact absurd h.1.symm (fun hh => hn (hh ▸ List.mem_cons_self a as))
  | cons b bs ih =>
    intro n r hn hc h
    cases n with
    | nil =>
      simp only [List.nil_append, List.cons_append, listStartsWith,
        Bool.and_eq_true, beq_iff_eq] at h
      exact absurd h.1 (fun hh => hc (hh ▸ List.mem_cons_self b bs))
    | cons a as =>
      simp only [List.cons_append, listStartsWith, Bool.and_eq_true, beq_iff_eq] at h
      have has : as = bs :=
        ih as r (fun hm => hn (List.mem_cons_of_mem a hm))
          (fun hm => hc (List.mem_cons_of_mem b hm)) h.2
      rw [h.1, has]

/-- C5: a stripped body beginning with `\x7b` is parsed as raw JSON; the
body `foo123(J)` with callback `foo123` yields the same JSON text as the
raw body `J`; and a JSONP wrapper whose name differs from the callback is
a parse failure. -/
theorem C5_jsonp_parse :
    (∀ (text cb : String), pyStrip text ≠ "" →
      listStartsWith (pyStrip text).data ['\x7b'] = true →
      parse_jsonp text cb = .ok (pyStrip text)) ∧
    (parse_jsonp "foo123(\x7b\"ret\":[\"SUCCESS\"]\x7d)" "foo123" =
        .ok "\x7b\"ret\":[\"SUCCESS\"]\x7d" ∧
      parse_jsonp "\x7b\"ret\":[\"SUCCESS\"]\x7d" "foo123" =
        .ok "\x7b\"ret\":[\"SUCCESS\"]\x7d") ∧
    (∀ (a : Char) (n2 c inner : List Char),
      isPySpace a = false → a ≠ '\x7b' →
      '(' ∉ (a :: n2) → '(' ∉ c → a :: n2 ≠ c →
      parse_jsonp ⟨(a :: n2) ++ '(' :: (inner ++ [')'])⟩ ⟨c⟩ =
        .error ("unexpected jsonp payload, callback=" ++ (⟨c⟩ : String))) := by
  refine ⟨fun text cb h1 h2 => ?_, ⟨by rfl, by rfl⟩, fun a n2 c inner ha hbrace hn hc hne => ?_⟩
  · unfold parse_jsonp
    rw [if_neg h1, if_pos h2]
  · have hbody : pyStrip ⟨(a :: n2) ++ '(' :: (inner ++ [')'])⟩ =
        ⟨(a :: n2) ++ '(' :: (inner ++ [')'])⟩ := by
      have := pyStripList_eq_self_paren a (n2 ++ '(' :: inner) ha
      unfold pyStrip
      simp only [List.cons_append, List.append_assoc, List.cons_append] at this ⊢
      rw [this]
    unfold parse_jsonp
    rw [hbody]
    have hne2 : (⟨(a :: n2) ++ '(' :: (inner ++ [')'])⟩ : String) ≠ "" := by
      simp [String.ext_iff]
    rw [if_neg hne2]
    have hstart1 : listStartsWith ((a :: n2) ++ '(' :: (inner ++ [')'])) ['\x7b'] = false := by
      simp only [List.cons_append, listStartsWith]
      have : (a == '\x7b') = false := beq_eq_false_iff_ne.mpr hbrace
      simp [this]
    have hstart2 :
        listStartsWith ((a :: n2) ++ '(' :: (inner ++ [')'])) (c ++ ['(']) = false := by
      cases hsw : listStartsWith ((a :: n2) ++ '(' :: (inner ++ [')'])) (c ++ ['(']) with
      | false => rfl
      | true =>
        exact absurd (name_eq_of_startsWith_sep '(' c (a :: n2) (inner ++ [')']) hn hc hsw) hne
    simp only [hstart1, hstart2, Bool.false_eq_true, if_false]

/-- Witness for C5 at concrete bodies: a raw-JSON body and a mismatched
wrapper name. -/
theorem C5_jsonp_parse_witness :
    parse_jsonp "\x7b\"a\":1\x7d" "cb" = .ok "\x7b\"a\":1\x7d" ∧
    parse_jsonp "foo124(\x7b\"a\":1\x7d)" "foo123" =
      .error "unexpected jsonp payload, callback=foo123" :=
  ⟨C5_jsonp_parse.1 "\x7b\"a\":1\x7d" "cb" (by decide)
    (by decide),
   C5_jsonp_parse.2.2 'f' "oo124".data "foo123".data "\x7b\"a\":1".data
    (by decide) (by decide) (by decide) (by decide) (by decide)⟩

/-! ### Item normalization (`_normalize_detail_url`, `_extract_products`)

A parsed page item is a JSON object; the fields read by the extractor are
modeled as optional strings (`none` = key absent / JSON null), with Python's
`str(x or "")` collapsing an absent or empty value to `""`. -/

structure RawItem where
  title : Option String := none
  itemUrl : Option String := none
  url : Option String := none
  detail_url : Option String := none
  item_id : Option String := none
  itemId : Option String := none
  procity : Option String := none
  realSales : Option String := none
  sales : Option String := none
  price : Option String := none
  origPrice : Option String := none
  priceBeforeCoupon : Option String := none
  originalPrice : Option String := none
  nick : Option String := none
  shopName : Option String := none
  category : Option String := none
deriving DecidableEq, Repr

/-- `str(item.get(key) or "").strip()` for one optional string field. -/
def pyGetStr (v : Option String) : String := pyStrip (v.getD "")

/-- Python `a or b` over two optional strings (first truthy value),
rendered with `str(... or "")`. -/
def pyOrStr (a b : Option String) : String :=
  match a with
  | some s => if s = "" then b.getD "" else s
  | none => b.getD ""

/-- The body of the key loop in `_normalize_detail_url`: resolve a
non-empty raw URL of a recognized shape, else fall through. -/
def resolveUrlShape (raw : String) : Option String :=
  if listStartsWith raw.data ['/', '/'] then some ("https:" ++ raw)
  else if listStartsWith raw.data ("http://".data) ||
      listStartsWith raw.data ("https://".data) then some raw
  else if listStartsWith raw.data ['/'] then some ("https://s.taobao.com" ++ raw)
  else none

/-- The `for key in ("itemUrl", "url", "detail_url")` loop. -/
def resolveUrlKeys : List (Option String) → Option String
  | [] => none
  | v :: rest =>
    let raw := pyGetStr v
    if raw = "" then resolveUrlKeys rest
    else
      match resolveUrlShape raw with
      | some u => some u
      | none => resolveUrlKeys rest

/-- `_normalize_detail_url`. -/
def normalize_detail_url (item : RawItem) : Option String :=
  match resolveUrlKeys [item.itemUrl, item.url, item.detail_url] with
  | some u => some u
  | none =>
    let iid := pyStrip (pyOrStr item.item_id item.itemId)
    if iid ≠ "" then some ("https://item.taobao.com/item.htm?id=" ++ iid)
    else none

/-- C4: detail URL resolution: protocol-relative URLs get the `https`
scheme; root-relative URLs are resolved against `https://s.taobao.com`;
an item carrying only an item id yields the canonical item URL template;
an item with none of these yields no URL. -/
theorem C4_detail_url_resolution :
    (∀ (u : String) (item : RawItem), item.itemUrl = some u →
      pyStrip u = u → listStartsWith u.data ['/', '/'] = true →
      normalize_detail_url item = some ("https:" ++ u)) ∧
    (∀ (u : String) (item : RawItem), item.itemUrl = some u →
      pyStrip u = u → listStartsWith u.data ['/'] = true →
      listStartsWith u.data ['/', '/'] = false →
      normalize_detail_url item = some ("https://s.taobao.com" ++ u)) ∧
    (∀ (i : String) (item : RawItem), item.itemUrl = none → item.url = none →
      item.detail_url = none → item.item_id = some i → item.itemId = none →
      pyStrip i = i → i ≠ "" →
      normalize_detail_url item = some ("https://item.taobao.com/item.htm?id=" ++ i)) ∧
    (∀ (item : RawItem), item.itemUrl = none → item.url = none →
      item.detail_url = none → item.item_id = none → item.itemId = none →
      normalize_detail_url item = none) := by
  refine ⟨fun u item h1 h2 h3 => ?_, fun u item h1 h2 h3 h4 => ?_,
    fun i item h1 h2 h3 h4 h5 h6 h7 => ?_, fun item h1 h2 h3 h4 h5 => ?_⟩
  · have hne : u ≠ "" := by
      intro he; rw [he] at h3; exact absurd h3 (by decide)
    rw [normalize_detail_url, resolveUrlKeys, h1]
    simp only [pyGetStr, Option.getD_some, h2, hne, if_neg hne]
    rw [resolveUrlShape, if_pos h3]
    simp
  · have hne : u ≠ "" := by
      intro he; rw [he] at h3; exact absurd h3 (by decide)
    obtain ⟨a, l, hu, ha⟩ : ∃ a l, u.data = a :: l ∧ a = '/' := by
      cases hd : u.data with
      | nil => rw [hd] at h3; exact absurd h3 (by decide)
      | cons a l =>
        rw [hd] at h3
        simp only [listStartsWith, Bool.and_eq_true, beq_iff_eq] at h3
        exact ⟨a, l, rfl, h3.1⟩
    have hh1 : listStartsWith u.data ("http://".data) = false := by
      rw [hu, ha]; rfl
    have hh2 : listStartsWith u.data ("https://".data) = false := by
      rw [hu, ha]; rfl
    rw [normalize_detail_url, resolveUrlKeys, h1]
    simp only [pyGetStr, Option.getD_some, h2, if_neg hne]
    rw [resolveUrlShape, if_neg (by rw [h4]; exact Bool.false_ne_true),
      if_neg (by rw [hh1, hh2]; exact Bool.false_ne_true), if_pos h3]
  · rw [normalize_detail_url, h1, h2, h3, h4, h5]
    show (if pyStrip (pyOrStr (some i) none) ≠ "" then _ else _) = _
    have : pyOrStr (some i) none = i := by
      rw [pyOrStr]
      by_cases hi : i = ""
      · exact absurd hi h7
      · simp [hi]
    rw [this, h6, if_pos h7]
  · rw [normalize_detail_url, h1, h2, h3, h4, h5]
    rfl

/-- Witness for C4 at four concrete items. -/
theorem C4_detail_url_resolution_witness :
    normalize_detail_url { itemUrl := some "//detail.tmall.com/item.htm?id=7" } =
      some "https://detail.tmall.com/item.htm?id=7" ∧
    normalize_detail_url { itemUrl := some "/list?q=fish" } =
      some "https://s.taobao.com/list?q=fish" ∧
    normalize_detail_url { item_id := some "42" } =
      some "https://item.taobao.com/item.htm?id=42" ∧
    normalize_detail_url {} = none :=
  ⟨C4_detail_url_resolution.1 "//detail.tmall.com/item.htm?id=7" _ rfl (by decide) (by decide),
   C4_detail_url_resolution.2.1 "/list?q=fish" _ rfl (by decide) (by decide) (by decide),
   C4_detail_url_resolution.2.2.1 "42" _ rfl rfl rfl rfl rfl (by decide) (by decide),
   C4_detail_url_resolution.2.2.2 _ rfl rfl rfl rfl rfl⟩

/-! ### Cookie string assembly (`_build_cookie_string`, `refresh_taobao_cookie.py`)

Source:

```
TAOBAO_COOKIE_PRIORITY = ("_m_h5_tk", "_m_h5_tk_enc", "cookie2", "t", "_tb_token_", "cna")

def _build_cookie_string(cookie_map: dict[str, str]) -> str:
    keys: list[str] = []
    seen = set()
    for name in TAOBAO_COOKIE_PRIORITY:
        if name in cookie_map and name not in seen:
            keys.append(name)
            seen.add(name)
    for name in sorted(cookie_map):
        if name in seen:
            continue
        keys.append(name)
        seen.add(name)
    return "; ".join(f"\x7bname\x7d=\x7bcookie_map[name]\x7d" for name in keys)
```

A Python dict is modeled as an association list with distinct keys;
`sorted(cookie_map)` sorts the key list lexicographically. -/

def TAOBAO_COOKIE_PRIORITY : List String :=
  ["_m_h5_tk", "_m_h5_tk_enc", "cookie2", "t", "_tb_token_", "cna"]

/-- Key list of the cookie map (dict iteration order). -/
def cmKeys (m : List (String × String)) : List String := m.map Prod.fst

/-- Dict lookup `cookie_map[name]`. -/
def cmLookup (m : List (String × String)) (k : String) : Option String :=
  match m with
  | [] => none
  | (n, v) :: rest => if n = k then some v else cmLookup rest k

/-- First loop of `_build_cookie_string`: collect priority names present in
the map, tracking `seen`; returns accumulated keys and the final `seen`. -/
def buildKeysPriority : List String → List String → List String → List String × List String
  | [], _, seen => ([], seen)
  | n :: rest, mk, seen =>
    if n ∈ mk ∧ n ∉ seen then
      let r := buildKeysPriority rest mk (seen ++ [n])
      (n :: r.1, r.2)
    else buildKeysPriority rest mk seen

/-- Second loop: append the sorted remaining names not yet seen. -/
def buildKeysRest : List String → List String → List String
  | [], _ => []
  | n :: rest, seen =>
    if n ∈ seen then buildKeysRest rest seen
    else n :: buildKeysRest rest (seen ++ [n])

/-- Python `sorted` on a list of strings (lexicographic). -/
def sortStrings (l : List String) : List String :=
  List.mergeSort l (fun a b => a ≤ b)

/-- `_build_cookie_string`. -/
def build_cookie_string (m : List (String × String)) : String :=
  let p := buildKeysPriority TAOBAO_COOKIE_PRIORITY (cmKeys m) []
  let keys := p.1 ++ buildKeysRest (sortStrings (cmKeys m)) p.2
  pyJoin "; " (keys.map (fun n => n ++ "=" ++ (cmLookup m n).getD ""))

/-- The cookie map of the C7 counterexample: the two required keys plus a
pathological third key whose name embeds `=` and `; `. -/
def ce7map : List (String × String) :=
  [("_m_h5_tk", "X"), ("_m_h5_tk_enc", "Y"), ("_m_h5_tk=X; _m_h5_tk_enc", "Z")]

theorem ce7_sorted :
    sortStrings ["_m_h5_tk", "_m_h5_tk_enc", "_m_h5_tk=X; _m_h5_tk_enc"] =
      ["_m_h5_tk", "_m_h5_tk=X; _m_h5_tk_enc", "_m_h5_tk_enc"] := by
  refine List.eq_of_perm_of_sorted
    ((List.mergeSort_perm _ _).trans (by decide))
    (List.sorted_mergeSort' _) ?_
  refine List.sorted_cons.mpr ⟨?_, List.sorted_cons.mpr ⟨?_, List.sorted_singleton _⟩⟩
  · intro b hb
    simp only [List.mem_cons, List.not_mem_nil, or_false] at hb
    rcases hb with h | h <;> subst h <;> (rw [String.le_iff_toList_le]; decide)
  · intro b hb
    simp only [List.mem_singleton] at hb
    subst hb
    rw [String.le_iff_toList_le]; decide

theorem ce7_built :
    build_cookie_string ce7map =
      "_m_h5_tk=X; _m_h5_tk_enc=Y; _m_h5_tk=X; _m_h5_tk_enc=Z" := by
  unfold build_cookie_string
  have hk : cmKeys ce7map =
      ["_m_h5_tk", "_m_h5_tk_enc", "_m_h5_tk=X; _m_h5_tk_enc"] := rfl
  rw [hk, ce7_sorted]
  rfl

/-- C7 counterexample: for the cookie map `ce7map` (token ↦ X, tokenEnc ↦ Y,
and the third key ↦ Z), building the cookie string and re-parsing the third
key yields `"Y"`, not the stored value `"Z"`: the claimed round-trip fails. -/
theorem C7_roundtrip_counterexample :
    extract_cookie_value (build_cookie_string ce7map) "_m_h5_tk=X; _m_h5_tk_enc" = "Y" ∧
    cmLookup ce7map "_m_h5_tk=X; _m_h5_tk_enc" = some "Z" ∧
    ("Y" : String) ≠ "Z" := by
  rw [ce7_built]
  exact ⟨by decide, by decide, by decide⟩

/-! Lemmas about the cookie-value matcher, used for the amended C7
round-trip statement. -/

/-- The position-0 `^` branch followed by the `;`-boundary scan: the whole
matcher underlying `_extract_cookie_value`. -/
def cookieFind (key l : List Char) : Option (List Char) :=
  match tryKeyMatch key l with
  | some v => some v
  | none => cookieScan key l

theorem extract_cookie_value_eq_find (cookie key : String) :
    extract_cookie_value cookie key =
      (match cookieFind key.data cookie.data with
      | some v => pyStrip ⟨v⟩
      | none => "") := by
  unfold extract_cookie_value cookieFind
  cases tryKeyMatch key.data cookie.data <;> rfl

theorem listStartsWith_nil_pat (l : List Char) : listStartsWith l [] = true := by
  cases l <;> rfl

theorem listStartsWith_append_self (p q r : List Char) :
    listStartsWith (p ++ q) (p ++ r) = listStartsWith q r := by
  induction p with
  | nil => rfl
  | cons a as ih => simp [listStartsWith, ih]

theorem takeWhile_semi_append (v t : List Char) (hv : ∀ c ∈ v, c ≠ ';') :
    (v ++ t).takeWhile (fun c => c != ';') = v ++ t.takeWhile (fun c => c != ';') := by
  induction v with
  | nil => rfl
  | cons c cs ih =>
    have hc : (c != ';') = true := bne_iff_ne.mpr (hv c (List.mem_cons_self c cs))
    simp only [List.cons_append, List.takeWhile_cons, hc]
    rw [ih (fun x hx => hv x (List.mem_cons_of_mem c hx))]
    simp

theorem capture_eq (v t : List Char) (hv : ∀ c ∈ v, c ≠ ';')
    (ht : t = [] ∨ ∃ t2, t = ';' :: t2) :
    (v ++ t).takeWhile (fun c => c != ';') = v := by
  rw [takeWhile_semi_append v t hv]
  rcases ht with rfl | ⟨t2, rfl⟩
  · simp
  · simp [List.takeWhile_cons]

theorem tryKeyMatch_self (n v t : List Char) (hvne : v ≠ [])
    (hv : ∀ c ∈ v, c ≠ ';') (ht : t = [] ∨ ∃ t2, t = ';' :: t2) :
    tryKeyMatch n (n ++ '=' :: (v ++ t)) = some v := by
  unfold tryKeyMatch
  have hsw : listStartsWith (n ++ '=' :: (v ++ t)) (n ++ ['=']) = true := by
    rw [show (n ++ '=' :: (v ++ t)) = n ++ ('=' :: (v ++ t)) from rfl,
      listStartsWith_append_self]
    simp [listStartsWith, listStartsWith_nil_pat]
  rw [if_pos hsw]
  have hdrop : (n ++ '=' :: (v ++ t)).drop (n.length + 1) = v ++ t := by
    rw [show (n ++ '=' :: (v ++ t)) = (n ++ ['=']) ++ (v ++ t) by simp,
      show n.length + 1 = (n ++ ['=']).length by simp]
    exact List.drop_left _ _
  rw [hdrop, capture_eq v t hv ht]
  cases v with
  | nil => exact absurd rfl hvne
  | cons c cs => rfl

theorem tryKeyMatch_ne (key n r : List Char) (hne : n ≠ key)
    (hkey : '=' ∉ key) (hn : '=' ∉ n) :
    tryKeyMatch key (n ++ '=' :: r) = none := by
  unfold tryKeyMatch
  cases hsw : listStartsWith (n ++ '=' :: r) (key ++ ['=']) with
  | false => simp [hsw]
  | true => exact absurd (name_eq_of_startsWith_sep '=' key n r hn hkey hsw) hne

theorem tryKeyMatch_ws_head (key l : List Char) (c : Char) (hc : isPySpace c = true)
    (hkey : ∀ x ∈ key, isPySpace x = false) :
    tryKeyMatch key (c :: l) = none := by
  unfold tryKeyMatch
  cases key with
  | nil =>
    have hcne : (c == '=') = false := by
      refine beq_eq_false_iff_ne.mpr (fun h => ?_)
      rw [h] at hc
      exact absurd hc (by decide)
    simp [listStartsWith, hcne]
  | cons a as =>
    have hcne : (c == a) = false := by
      refine beq_eq_false_iff_ne.mpr (fun h => ?_)
      have := hkey a (List.mem_cons_self a as)
      rw [h] at hc
      rw [hc] at this
      exact absurd this (by decide)
    simp [listStartsWith, hcne]

theorem tryAfterWs_nonws (key : List Char) (c : Char) (l : List Char)
    (hc : isPySpace c = false) :
    tryAfterWs key (c :: l) = tryKeyMatch key (c :: l) := by
  unfold tryAfterWs
  simp [hc]

theorem cookieScan_append_skip (key p l : List Char) (hp : ∀ c ∈ p, c ≠ ';') :
    cookieScan key (p ++ l) = cookieScan key l := by
  induction p with
  | nil => rfl
  | cons c cs ih =>
    have hc : ¬ (c = ';') := hp c (List.mem_cons_self c cs)
    rw [List.cons_append]
    conv_lhs => unfold cookieScan
    rw [if_neg hc]
    exact ih (fun x hx => hp x (List.mem_cons_of_mem c hx))

theorem cookieFind_head (n v t : List Char) (hvne : v ≠ [])
    (hv : ∀ c ∈ v, c ≠ ';') (ht : t = [] ∨ ∃ t2, t = ';' :: t2) :
    cookieFind n (n ++ '=' :: (v ++ t)) = some v := by
  unfold cookieFind
  rw [tryKeyMatch_self n v t hvne hv ht]

theorem cookieFind_step (key n v jr : List Char)
    (hne : n ≠ key) (hkeywf : ∀ c ∈ key, c ≠ '=' ∧ isPySpace c = false)
    (hnwf : ∀ c ∈ n, c ≠ ';' ∧ c ≠ '=')
    (hv : ∀ c ∈ v, c ≠ ';')
    (hjr : ∃ c rest, jr = c :: rest ∧ isPySpace c = false) :
    cookieFind key (n ++ '=' :: (v ++ ';' :: ' ' :: jr)) = cookieFind key jr := by
  obtain ⟨jc, jrest, hjreq, hjc⟩ := hjr
  have hkey_eq : '=' ∉ key := fun hm => (hkeywf _ hm).1 rfl
  have hn_eq : '=' ∉ n := fun hm => (hnwf _ hm).2 rfl
  have h1 : tryKeyMatch key (n ++ '=' :: (v ++ ';' :: ' ' :: jr)) = none :=
    tryKeyMatch_ne key n _ hne hkey_eq hn_eq
  have hscan : cookieScan key (n ++ '=' :: (v ++ ';' :: ' ' :: jr)) =
      cookieScan key (';' :: ' ' :: jr) := by
    rw [show n ++ '=' :: (v ++ ';' :: ' ' :: jr) =
        (n ++ '=' :: v) ++ (';' :: ' ' :: jr) by simp]
    refine cookieScan_append_skip key (n ++ '=' :: v) _ ?_
    intro c hc
    rcases List.mem_append.mp hc with h | h
    · exact (hnwf c h).1
    · rcases List.mem_cons.mp h with rfl | h2
      · decide
      · exact hv c h2
  have h3 : tryAfterWs key (' ' :: jr) =
      (match tryAfterWs key jr with
       | some w => some w
       | none => tryKeyMatch key (' ' :: jr)) := by
    conv_lhs => unfold tryAfterWs
    rw [if_pos (show isPySpace ' ' = true from rfl)]
  have h4 : tryAfterWs key jr = tryKeyMatch key jr := by
    rw [hjreq]
    exact tryAfterWs_nonws key jc jrest hjc
  have h5 : tryKeyMatch key (' ' :: jr) = none :=
    tryKeyMatch_ws_head key jr ' ' (by decide) (fun x hx => (hkeywf x hx).2)
  have h6 : cookieScan key (' ' :: jr) = cookieScan key jr := by
    refine cookieScan_append_skip key [' '] jr ?_
    intro c hc
    rw [List.mem_singleton] at hc
    subst hc
    decide
  unfold cookieFind
  rw [h1, hscan]
  conv_lhs => unfold cookieScan
  rw [if_pos rfl, h3, h4, h5, h6]
  cases htk : tryKeyMatch key jr <;> rfl

/-! Lemmas about the key-ordering loops of `_build_cookie_string`. -/

theorem buildKeysPriority_congr (names : List String) (mk1 mk2 : List String)
    (h : ∀ n ∈ names, (n ∈ mk1 ↔ n ∈ mk2)) (seen : List String) :
    buildKeysPriority names mk1 seen = buildKeysPriority names mk2 seen := by
  induction names generalizing seen with
  | nil => rfl
  | cons n rest ih =>
    have hn := h n (List.mem_cons_self n rest)
    have hrest : ∀ x ∈ rest, (x ∈ mk1 ↔ x ∈ mk2) :=
      fun x hx => h x (List.mem_cons_of_mem n hx)
    unfold buildKeysPriority
    by_cases hm : n ∈ mk1 ∧ n ∉ seen
    · rw [if_pos hm, if_pos ⟨hn.1 hm.1, hm.2⟩, ih hrest]
    · rw [if_neg hm, if_neg (fun hc => hm ⟨hn.2 hc.1, hc.2⟩), ih hrest]

theorem buildKeysRest_filter (l : List String) (hl : l.Nodup) (seen : List String) :
    buildKeysRest l seen = l.filter (fun n => decide (n ∉ seen)) := by
  induction l generalizing seen with
  | nil => rfl
  | cons n rest ih =>
    rcases List.nodup_cons.mp hl with ⟨hn, hrest⟩
    unfold buildKeysRest
    by_cases hmem : n ∈ seen
    · rw [if_pos hmem, ih hrest]
      simp [List.filter_cons, hmem]
    · rw [if_neg hmem, ih hrest]
      have hcong : rest.filter (fun x => decide (x ∉ seen ++ [n])) =
          rest.filter (fun x => decide (x ∉ seen)) := by
        refine List.filter_congr ?_
        intro x hx
        have hxn : x ≠ n := fun h => hn (h ▸ hx)
        simp [List.mem_append, hxn]
      rw [hcong]
      simp [List.filter_cons, hmem]

theorem sortStrings_of_perm (l1 l2 : List String) (h : l1.Perm l2) :
    sortStrings l1 = sortStrings l2 :=
  List.eq_of_perm_of_sorted
    ((List.mergeSort_perm l1 _).trans (h.trans (List.mergeSort_perm l2 _).symm))
    (List.sorted_mergeSort' l1) (List.sorted_mergeSort' l2)

theorem sortStrings_perm (l : List String) : (sortStrings l).Perm l :=
  List.mergeSort_perm l _

/-- The key list computed by `_build_cookie_string` for a map holding the
two required token keys and one other well-formed key: the tokens come
first (priority order), the other key follows. -/
theorem build_keys_result (m : List (String × String)) (k : String)
    (hkeys : (cmKeys m).Perm ["_m_h5_tk", "_m_h5_tk_enc", k])
    (hk1 : k ≠ "_m_h5_tk") (hk2 : k ≠ "_m_h5_tk_enc") :
    (buildKeysPriority TAOBAO_COOKIE_PRIORITY (cmKeys m) []).1 ++
      buildKeysRest (sortStrings (cmKeys m))
        (buildKeysPriority TAOBAO_COOKIE_PRIORITY (cmKeys m) []).2 =
      ["_m_h5_tk", "_m_h5_tk_enc", k] := by
  have hmem : ∀ n ∈ TAOBAO_COOKIE_PRIORITY,
      (n ∈ cmKeys m ↔ n ∈ ["_m_h5_tk", "_m_h5_tk_enc", k]) :=
    fun n _ => hkeys.mem_iff
  have hnodup3 : (["_m_h5_tk", "_m_h5_tk_enc", k] : List String).Nodup := by
    refine List.nodup_cons.mpr ⟨?_, List.nodup_cons.mpr ⟨?_, List.nodup_singleton _⟩⟩
    · intro h
      simp only [List.mem_cons, List.not_mem_nil, or_false] at h
      rcases h with h | h
      · exact absurd h (by decide)
      · exact hk1 h.symm
    · intro h
      simp only [List.mem_cons, List.not_mem_nil, or_false] at h
      exact hk2 h.symm
  have hsortperm : (sortStrings (cmKeys m)).Perm ["_m_h5_tk", "_m_h5_tk_enc", k] :=
    (sortStrings_perm _).trans hkeys
  have hsortnodup : (sortStrings (cmKeys m)).Nodup := hsortperm.nodup_iff.mpr hnodup3
  rw [buildKeysPriority_congr TAOBAO_COOKIE_PRIORITY (cmKeys m)
    ["_m_h5_tk", "_m_h5_tk_enc", k] hmem []]
  by_cases hc2 : k = "cookie2"
  · subst hc2
    rw [show buildKeysPriority TAOBAO_COOKIE_PRIORITY
        ["_m_h5_tk", "_m_h5_tk_enc", "cookie2"] [] =
        (["_m_h5_tk", "_m_h5_tk_enc", "cookie2"],
         ["_m_h5_tk", "_m_h5_tk_enc", "cookie2"]) from by decide]
    rw [buildKeysRest_filter _ hsortnodup]
    have hnil : (sortStrings (cmKeys m)).filter
        (fun n => decide (n ∉ (["_m_h5_tk", "_m_h5_tk_enc", "cookie2"] : List String))) = [] := by
      refine List.Perm.eq_nil ((hsortperm.filter _).trans ?_)
      decide
    rw [hnil, List.append_nil]
  by_cases hct : k = "t"
  · subst hct
    rw [show buildKeysPriority TAOBAO_COOKIE_PRIORITY
        ["_m_h5_tk", "_m_h5_tk_enc", "t"] [] =
        (["_m_h5_tk", "_m_h5_tk_enc", "t"],
         ["_m_h5_tk", "_m_h5_tk_enc", "t"]) from by decide]
    rw [buildKeysRest_filter _ hsortnodup]
    have hnil : (sortStrings (cmKeys m)).filter
        (fun n => decide (n ∉ (["_m_h5_tk", "_m_h5_tk_enc", "t"] : List String))) = [] := by
      refine List.Perm.eq_nil ((hsortperm.filter _).trans ?_)
      decide
    rw [hnil, List.append_nil]
  by_cases hcb : k = "_tb_token_"
  · subst hcb
    rw [show buildKeysPriority TAOBAO_COOKIE_PRIORITY
        ["_m_h5_tk", "_m_h5_tk_enc", "_tb_token_"] [] =
        (["_m_h5_tk", "_m_h5_tk_enc", "_tb_token_"],
         ["_m_h5_tk", "_m_h5_tk_enc", "_tb_token_"]) from by decide]
    rw [buildKeysRest_filter _ hsortnodup]
    have hnil : (sortStrings (cmKeys m)).filter
        (fun n => decide (n ∉ (["_m_h5_tk", "_m_h5_tk_enc", "_tb_token_"] : List String))) = [] := by
      refine List.Perm.eq_nil ((hsortperm.filter _).trans ?_)
      decide
    rw [hnil, List.append_nil]
  by_cases hcc : k = "cna"
  · subst hcc
    rw [show buildKeysPriority TAOBAO_COOKIE_PRIORITY
        ["_m_h5_tk", "_m_h5_tk_enc", "cna"] [] =
        (["_m_h5_tk", "_m_h5_tk_enc", "cna"],
         ["_m_h5_tk", "_m_h5_tk_enc", "cna"]) from by decide]
    rw [buildKeysRest_filter _ hsortnodup]
    have hnil : (sortStrings (cmKeys m)).filter
        (fun n => decide (n ∉ (["_m_h5_tk", "_m_h5_tk_enc", "cna"] : List String))) = [] := by
      refine List.Perm.eq_nil ((hsortperm.filter _).trans ?_)
      decide
    rw [hnil, List.append_nil]
  · have hmem2 : ∀ n ∈ TAOBAO_COOKIE_PRIORITY,
        (n ∈ (["_m_h5_tk", "_m_h5_tk_enc", k] : List String) ↔
          n ∈ (["_m_h5_tk", "_m_h5_tk_enc"] : List String)) := by
      intro n hn
      simp only [TAOBAO_COOKIE_PRIORITY, List.mem_cons, List.not_mem_nil, or_false] at hn
      have hgen : ∀ (x : String), x ≠ "_m_h5_tk" → x ≠ "_m_h5_tk_enc" → x ≠ k →
          (x ∈ (["_m_h5_tk", "_m_h5_tk_enc", k] : List String) ↔
            x ∈ (["_m_h5_tk", "_m_h5_tk_enc"] : List String)) := by
        intro x h1 h2 h3
        constructor
        · intro hx
          rcases List.mem_cons.mp hx with h | hx
          · exact absurd h h1
          rcases List.mem_cons.mp hx with h | hx
          · exact absurd h h2
          rcases List.mem_cons.mp hx with h | hx
          · exact absurd h h3
          · exact absurd hx (List.not_mem_nil x)
        · intro hx
          rcases List.mem_cons.mp hx with h | hx
          · exact absurd h h1
          rcases List.mem_cons.mp hx with h | hx
          · exact absurd h h2
          · exact absurd hx (List.not_mem_nil x)
      rcases hn with rfl | rfl | rfl | rfl | rfl | rfl
      · exact iff_of_true (List.mem_cons_self _ _) (List.mem_cons_self _ _)
      · exact iff_of_true (List.mem_cons.mpr (Or.inr (List.mem_cons_self _ _)))
          (List.mem_cons.mpr (Or.inr (List.mem_cons_self _ _)))
      · exact hgen _ (by decide) (by decide) (fun h => hc2 h.symm)
      · exact hgen _ (by decide) (by decide) (fun h => hct h.symm)
      · exact hgen _ (by decide) (by decide) (fun h => hcb h.symm)
      · exact hgen _ (by decide) (by decide) (fun h => hcc h.symm)
    rw [buildKeysPriority_congr TAOBAO_COOKIE_PRIORITY
      ["_m_h5_tk", "_m_h5_tk_enc", k] ["_m_h5_tk", "_m_h5_tk_enc"] hmem2 []]
    rw [show buildKeysPriority TAOBAO_COOKIE_PRIORITY
        ["_m_h5_tk", "_m_h5_tk_enc"] [] =
        (["_m_h5_tk", "_m_h5_tk_enc"], ["_m_h5_tk", "_m_h5_tk_enc"]) from by decide]
    rw [buildKeysRest_filter _ hsortnodup]
    have hfk : (decide (k ∉ (["_m_h5_tk", "_m_h5_tk_enc"] : List String))) = true := by
      rw [decide_eq_true_eq]
      simp only [List.mem_cons, List.not_mem_nil, or_false, not_or]
      exact ⟨hk1, hk2⟩
    have hfilter : List.filter (fun n => decide (n ∉ (["_m_h5_tk", "_m_h5_tk_enc"] : List String)))
        ["_m_h5_tk", "_m_h5_tk_enc", k] = [k] := by
      simp only [List.filter_cons, List.filter_nil]
      rw [show (decide (("_m_h5_tk" : String) ∉ (["_m_h5_tk", "_m_h5_tk_enc"] : List String))) = false
          from by decide]
      rw [show (decide (("_m_h5_tk_enc" : String) ∉ (["_m_h5_tk", "_m_h5_tk_enc"] : List String))) = false
          from by decide]
      rw [hfk]
      simp
    have hone : (sortStrings (cmKeys m)).filter
        (fun n => decide (n ∉ (["_m_h5_tk", "_m_h5_tk_enc"] : List String))) = [k] := by
      refine List.perm_singleton.mp ((hsortperm.filter _).trans ?_)
      rw [hfilter]
    rw [hone]
    rfl

/-- C7 amended: for a cookie map holding `_m_h5_tk ↦ X`, `_m_h5_tk_enc ↦ Y`
and one other key `k ↦ Z` where `k` is a well-formed cookie name (nonempty,
containing no `;`, `=` or whitespace), building the cookie string places
the two token keys first followed by `k`, and re-parsing recovers all three
values. -/
theorem C7_cookie_roundtrip_amended (m : List (String × String)) (k : String)
    (hkeys : (cmKeys m).Perm ["_m_h5_tk", "_m_h5_tk_enc", k])
    (hX : cmLookup m "_m_h5_tk" = some "X")
    (hY : cmLookup m "_m_h5_tk_enc" = some "Y")
    (hZ : cmLookup m k = some "Z")
    (hk1 : k ≠ "_m_h5_tk") (hk2 : k ≠ "_m_h5_tk_enc")
    (hk3 : k.data ≠ [])
    (hk4 : ∀ c ∈ k.data, c ≠ ';' ∧ c ≠ '=' ∧ isPySpace c = false) :
    build_cookie_string m = "_m_h5_tk=X; _m_h5_tk_enc=Y; " ++ k ++ "=Z" ∧
    extract_cookie_value (build_cookie_string m) "_m_h5_tk" = "X" ∧
    extract_cookie_value (build_cookie_string m) "_m_h5_tk_enc" = "Y" ∧
    extract_cookie_value (build_cookie_string m) k = "Z" := by
  have hbuild : build_cookie_string m = "_m_h5_tk=X; _m_h5_tk_enc=Y; " ++ k ++ "=Z" := by
    simp only [build_cookie_string]
    rw [build_keys_result m k hkeys hk1 hk2]
    simp only [List.map_cons, List.map_nil, hX, hY, hZ, Option.getD_some]
    simp only [pyJoin]
    refine String.toList_inj.mp ?_
    show (_ : String).data = (_ : String).data
    simp only [String.data_append, List.append_assoc]
    rfl
  obtain ⟨kc, krest, hkeq⟩ : ∃ c rest, k.data = c :: rest := by
    cases hd : k.data with
    | nil => exact absurd hd hk3
    | cons c rest => exact ⟨c, rest, rfl⟩
  have hkc : isPySpace kc = false := (hk4 kc (hkeq ▸ List.mem_cons_self kc krest)).2.2
  have hdata : (build_cookie_string m).data =
      ("_m_h5_tk").data ++ '=' :: (['X'] ++ (';' :: ' ' ::
        (("_m_h5_tk_enc").data ++ '=' :: (['Y'] ++ (';' :: ' ' ::
          (k.data ++ '=' :: (['Z'] ++ ([] : List Char)))))))) := by
    rw [hbuild]
    simp only [String.data_append]
    rfl
  have hkwf : ∀ c ∈ k.data, c ≠ '=' ∧ isPySpace c = false :=
    fun c hc => ⟨(hk4 c hc).2.1, (hk4 c hc).2.2⟩
  refine ⟨hbuild, ?_, ?_, ?_⟩
  · rw [extract_cookie_value_eq_find, hdata,
      cookieFind_head ("_m_h5_tk").data ['X'] _ (by decide) (by decide)
        (Or.inr ⟨_, rfl⟩)]
    rfl
  · rw [extract_cookie_value_eq_find, hdata,
      cookieFind_step ("_m_h5_tk_enc").data ("_m_h5_tk").data ['X']
        (("_m_h5_tk_enc").data ++ '=' :: (['Y'] ++ ';' :: ' ' ::
          (k.data ++ '=' :: (['Z'] ++ ([] : List Char)))))
        (by decide) (by decide) (by decide) (by decide)
        ⟨'_', _, rfl, by decide⟩,
      cookieFind_head ("_m_h5_tk_enc").data ['Y'] _ (by decide) (by decide)
        (Or.inr ⟨_, rfl⟩)]
    rfl
  · have hne1 : ("_m_h5_tk").data ≠ k.data :=
      fun h => hk1 (String.toList_inj.mp h.symm)
    have hne2 : ("_m_h5_tk_enc").data ≠ k.data :=
      fun h => hk2 (String.toList_inj.mp h.symm)
    rw [extract_cookie_value_eq_find, hdata,
      cookieFind_step k.data ("_m_h5_tk").data ['X']
        (("_m_h5_tk_enc").data ++ '=' :: (['Y'] ++ ';' :: ' ' ::
          (k.data ++ '=' :: (['Z'] ++ ([] : List Char)))))
        hne1 hkwf (by decide) (by decide) ⟨'_', _, rfl, by decide⟩,
      cookieFind_step k.data ("_m_h5_tk_enc").data ['Y']
        (k.data ++ '=' :: (['Z'] ++ ([] : List Char)))
        hne2 hkwf (by decide) (by decide)
        ⟨kc, krest ++ '=' :: (['Z'] ++ ([] : List Char)), by rw [hkeq]; rfl, hkc⟩,
      cookieFind_head k.data ['Z'] [] (by decide) (by decide) (Or.inl rfl)]
    rfl

/-- Witness for the amended C7 at a concrete three-key map given in
scrambled insertion order. -/
theorem C7_cookie_roundtrip_amended_witness :
    build_cookie_string
        [("tracknick", "Z"), ("_m_h5_tk", "X"), ("_m_h5_tk_enc", "Y")] =
      "_m_h5_tk=X; _m_h5_tk_enc=Y; " ++ "tracknick" ++ "=Z" ∧
    extract_cookie_value
        (build_cookie_string
          [("tracknick", "Z"), ("_m_h5_tk", "X"), ("_m_h5_tk_enc", "Y")])
        "_m_h5_tk" = "X" ∧
    extract_cookie_value
        (build_cookie_string
          [("tracknick", "Z"), ("_m_h5_tk", "X"), ("_m_h5_tk_enc", "Y")])
        "_m_h5_tk_enc" = "Y" ∧
    extract_cookie_value
        (build_cookie_string
          [("tracknick", "Z"), ("_m_h5_tk", "X"), ("_m_h5_tk_enc", "Y")])
        "tracknick" = "Z" :=
  C7_cookie_roundtrip_amended
    [("tracknick", "Z"), ("_m_h5_tk", "X"), ("_m_h5_tk_enc", "Y")] "tracknick"
    (by decide) (by decide) (by decide) (by decide)
    (by decide) (by decide) (by decide) (by decide)

/-! ### Key-value configuration file upsert (`_upsert_env_key`,
`refresh_taobao_cookie.py`)

Source:

```
def _quote_env_value(value: str) -> str:
    escaped = value.replace("\\\\", "\\\\\\\\").replace('"', '\\\\"')
    return f'"\x7bescaped\x7d"'

def _upsert_env_key(path: Path, key: str, value: str) -> None:
    if path.exists():
        lines = path.read_text(encoding="utf-8").splitlines()
    else:
        lines = []
    assign_re = re.compile(rf"^\s*\x7bre.escape(key)\x7d\s*=")
    new_line = f"\x7bkey\x7d=\x7b_quote_env_value(value)\x7d"
    found = False
    out: list[str] = []
    for line in lines:
        if assign_re.match(line):
            out.append(new_line)
            found = True
        else:
            out.append(line)
    if not found:
        if out and out[-1].strip():
            out.append("")
        out.append(new_line)
    text = "\n".join(out).rstrip() + "\n"
    path.write_text(text, encoding="utf-8")
```

The function is modeled as a pure map from the previous file content
(`none` = file absent) to the text written back.  `splitlines` is modeled
for `\n` line boundaries (the files this job writes use `\n`). -/

/-- `value.replace("\\", "\\\\")`. -/
def escBackslash : List Char → List Char
  | [] => []
  | c :: rest =>
    if c = '\\' then '\\' :: '\\' :: escBackslash rest
    else c :: escBackslash rest

/-- `.replace('"', '\\"')`. -/
def escDquote : List Char → List Char
  | [] => []
  | c :: rest =>
    if c = '"' then '\\' :: '"' :: escDquote rest
    else c :: escDquote rest

/-- `_quote_env_value`. -/
def quote_env_value (value : String) : String :=
  ⟨'"' :: (escDquote (escBackslash value.data) ++ ['"'])⟩

/-- `\s*` then a continuation, with the backtracking of a greedy `\s*`:
any number of leading whitespace characters may be consumed. -/
def wsThen (cont : List Char → Bool) : List Char → Bool
  | [] => cont []
  | c :: rest =>
    if isPySpace c then
      if wsThen cont rest then true else cont (c :: rest)
    else cont (c :: rest)

/-- `re.match` of `^\s*key\s*=` against a line. -/
def matchAssign (key line : List Char) : Bool :=
  wsThen
    (fun l1 =>
      listStartsWith l1 key &&
        wsThen (fun l2 => listStartsWith l2 ['=']) (l1.drop key.length))
    line

/-- Python `str.splitlines()` for `\n` boundaries (a trailing newline does
not open a final empty line). -/
def splitLinesAux (cur : List Char) : List Char → List (List Char)
  | [] => [cur.reverse]
  | c :: rest =>
    if c = '\n' then
      match rest with
      | [] => [cur.reverse]
      | _ :: _ => cur.reverse :: splitLinesAux [] rest
    else splitLinesAux (c :: cur) rest

/-- `str.splitlines()`. -/
def splitLines : List Char → List (List Char)
  | [] => []
  | c :: rest => splitLinesAux [] (c :: rest)

/-- `str.rstrip()` on a character list. -/
def pyRstrip (l : List Char) : List Char :=
  (l.reverse.dropWhile isPySpace).reverse

/-- `"\n".join(...)` on line lists. -/
def joinNl : List (List Char) → List Char
  | [] => []
  | [x] => x
  | x :: y :: rest => x ++ '\n' :: joinNl (y :: rest)

/-- The replacement loop of `_upsert_env_key`: transformed lines together
with the `found` flag. -/
def upsertLoop (key newLine : List Char) : List (List Char) → List (List Char) × Bool
  | [] => ([], false)
  | line :: rest =>
    let r := upsertLoop key newLine rest
    if matchAssign key line then (newLine :: r.1, true)
    else (line :: r.1, r.2)

/-- The lines read from the previous file content. -/
def envLines (content : Option String) : List (List Char) :=
  match content with
  | some text => splitLines text.data
  | none => []

/-- `new_line = f"{key}={_quote_env_value(value)}"` (keys and values as
character lists). -/
def envNewLine (key value : String) : List Char :=
  key.data ++ '=' :: (quote_env_value value).data

/-- The final `out` list (after the not-found append logic). -/
def envOut2 (content : Option String) (key value : String) : List (List Char) :=
  if (upsertLoop key.data (envNewLine key value) (envLines content)).2 then
    (upsertLoop key.data (envNewLine key value) (envLines content)).1
  else
    (match (upsertLoop key.data (envNewLine key value) (envLines content)).1.getLast? with
      | some last =>
        if pyStripList last ≠ [] then
          (upsertLoop key.data (envNewLine key value) (envLines content)).1 ++ [([] : List Char)]
        else (upsertLoop key.data (envNewLine key value) (envLines content)).1
      | none => (upsertLoop key.data (envNewLine key value) (envLines content)).1) ++
      [envNewLine key value]

/-- `_upsert_env_key` as a content transformer: the text written back. -/
def upsert_env_key (content : Option String) (key value : String) : String :=
  ⟨pyRstrip (joinNl (envOut2 content key value)) ++ ['\n']⟩

theorem upsertLoop_fst (key newLine : List Char) (lines : List (List Char)) :
    (upsertLoop key newLine lines).1 =
      lines.map (fun l => if matchAssign key l then newLine else l) := by
  induction lines with
  | nil => rfl
  | cons line rest ih =>
    unfold upsertLoop
    by_cases h : matchAssign key line = true
    · simp [h, ih]
    · simp [h, ih]

theorem upsertLoop_snd (key newLine : List Char) (lines : List (List Char)) :
    (upsertLoop key newLine lines).2 = lines.any (fun l => matchAssign key l) := by
  induction lines with
  | nil => rfl
  | cons line rest ih =>
    unfold upsertLoop
    by_cases h : matchAssign key line = true
    · simp [h]
    · simp [h, ih]

theorem upsertLoop_fst_id (key newLine : List Char) (lines : List (List Char))
    (h : lines.any (fun l => matchAssign key l) = false) :
    (upsertLoop key newLine lines).1 = lines := by
  have hnomatch : ∀ l ∈ lines, matchAssign key l = false := by
    intro l hl
    by_contra hc
    have htrue : lines.any (fun l => matchAssign key l) = true :=
      List.any_eq_true.mpr ⟨l, hl, by simpa using hc⟩
    rw [h] at htrue
    exact Bool.false_ne_true htrue
  rw [upsertLoop_fst]
  have hcong : ∀ l ∈ lines,
      (if matchAssign key l then newLine else l) = id l := by
    intro l hl
    simp [hnomatch l hl]
  rw [List.map_congr_left hcong, List.map_id]

/-- C8 counterexample: for the initial content `"K=old\n\n"` (one
assignment line followed by a blank line) the upsert writes `"K=\"v\"\n"`:
the blank line — a line not assigning `K` — is dropped by the final
`rstrip`, so the claim "leaves every line not assigning that key
unchanged" fails. -/
theorem C8_upsert_counterexample :
    upsert_env_key (some "K=old\n\n") "K" "v" = "K=\"v\"\n" ∧
    splitLines ("K=old\n\n").data = [['K', '=', 'o', 'l', 'd'], []] ∧
    splitLines ((upsert_env_key (some "K=old\n\n") "K" "v").data) =
      [['K', '=', '"', 'v', '"']] := by
  refine ⟨by decide, by decide, ?_⟩
  rw [show upsert_env_key (some "K=old\n\n") "K" "v" = "K=\"v\"\n" from by decide]
  decide

theorem escBackslash_id (l : List Char) (h : ∀ c ∈ l, c ≠ '\\') :
    escBackslash l = l := by
  induction l with
  | nil => rfl
  | cons c cs ih =>
    unfold escBackslash
    rw [if_neg (h c (List.mem_cons_self c cs))]
    rw [ih (fun x hx => h x (List.mem_cons_of_mem c hx))]

theorem escDquote_id (l : List Char) (h : ∀ c ∈ l, c ≠ '"') :
    escDquote l = l := by
  induction l with
  | nil => rfl
  | cons c cs ih =>
    unfold escDquote
    rw [if_neg (h c (List.mem_cons_self c cs))]
    rw [ih (fun x hx => h x (List.mem_cons_of_mem c hx))]

/-- C8 amended: the upsert replaces every assignment line of the key in
place (other lines keep their position and content), appends the quoted
assignment (after a blank separator when the last line is non-blank) when
no line matches, and writes the joined lines right-stripped with one
trailing newline — so trailing blank lines of the original file are not
preserved. -/
theorem C8_upsert_amended (content : Option String) (key value : String) :
    (upsert_env_key content key value =
      ⟨pyRstrip (joinNl (envOut2 content key value)) ++ ['\n']⟩) ∧
    (∀ i, (hi : i < (envLines content).length) →
      (envOut2 content key value)[i]? =
        some (if matchAssign key.data ((envLines content).get ⟨i, hi⟩) then
          envNewLine key value else (envLines content).get ⟨i, hi⟩)) ∧
    ((envLines content).any (fun l => matchAssign key.data l) = true →
      (envOut2 content key value).length = (envLines content).length) ∧
    ((envLines content).any (fun l => matchAssign key.data l) = false →
      (envOut2 content key value).take (envLines content).length = envLines content ∧
      (envOut2 content key value).getLast? = some (envNewLine key value)) ∧
    ((∀ c ∈ value.data, c ≠ '\\' ∧ c ≠ '"') →
      quote_env_value value = "\"" ++ value ++ "\"") := by
  have hany : (upsertLoop key.data (envNewLine key value) (envLines content)).2 =
      (envLines content).any (fun l => matchAssign key.data l) :=
    upsertLoop_snd _ _ _
  refine ⟨rfl, ?_, ?_, ?_, ?_⟩
  · intro i hi
    unfold envOut2
    by_cases hfound :
        (envLines content).any (fun l => matchAssign key.data l) = true
    · rw [if_pos (hany.trans hfound), upsertLoop_fst]
      rw [List.getElem?_eq_getElem (by simpa using hi)]
      simp [List.getElem_map, List.get_eq_getElem]
    · have hfound2 : (envLines content).any (fun l => matchAssign key.data l) = false :=
        Bool.not_eq_true _ ▸ Bool.eq_false_iff.mpr hfound
      rw [if_neg (fun hc => hfound (hany.symm.trans hc))]
      rw [upsertLoop_fst_id _ _ _ hfound2]
      have hnomatch : matchAssign key.data ((envLines content).get ⟨i, hi⟩) = false := by
        by_contra hc
        have htrue : (envLines content).any (fun l => matchAssign key.data l) = true :=
          List.any_eq_true.mpr ⟨_, List.get_mem (envLines content) i hi, by simpa using hc⟩
        exact hfound htrue
      rw [hnomatch]
      simp only [Bool.false_eq_true, if_false]
      cases hlast : (envLines content).getLast? with
      | none =>
        rw [List.getLast?_eq_none_iff.mp hlast] at hi
        exact absurd hi (by simp)
      | some last =>
        dsimp only
        by_cases hblank : pyStripList last ≠ []
        · rw [if_pos hblank, List.append_assoc]
          rw [List.getElem?_append_left (by simpa using hi)]
          rw [List.getElem?_eq_getElem (by simpa using hi)]
          simp [List.get_eq_getElem]
        · rw [if_neg hblank]
          rw [List.getElem?_append_left (by simpa using hi)]
          rw [List.getElem?_eq_getElem (by simpa using hi)]
          simp [List.get_eq_getElem]
  · intro hfound
    unfold envOut2
    rw [if_pos (hany.trans hfound), upsertLoop_fst]
    simp
  · intro hfound
    unfold envOut2
    rw [if_neg (fun hc => by rw [hany, hfound] at hc; exact Bool.false_ne_true hc)]
    rw [upsertLoop_fst_id _ _ _ hfound]
    constructor
    · cases hlast : (envLines content).getLast? with
      | none =>
        have hnil : envLines content = [] := List.getLast?_eq_none_iff.mp hlast
        rw [hnil]
        simp
      | some last =>
        dsimp only
        by_cases hblank : pyStripList last ≠ []
        · rw [if_pos hblank, List.append_assoc]
          exact List.take_left _ _
        · rw [if_neg hblank]
          exact List.take_left _ _
    · cases hlast : (envLines content).getLast? with
      | none => simp
      | some last =>
        dsimp only
        by_cases hblank : pyStripList last ≠ []
        · rw [if_pos hblank]
          simp
        · rw [if_neg hblank]
          simp
  · intro hclean
    unfold quote_env_value
    rw [escBackslash_id value.data (fun c hc => (hclean c hc).1)]
    rw [escDquote_id value.data (fun c hc => (hclean c hc).2)]
    refine String.toList_inj.mp ?_
    show ('"' :: (value.data ++ ['"'])) = _
    simp [String.data_append]

/-- Witness for the amended C8: a matching line replaced in place, the
append path, and plain-value quoting, at concrete inputs. -/
theorem C8_upsert_amended_witness :
    (envOut2 (some "A=1\nK=old\nB=2") "K" "v")[1]? =
      some (if matchAssign ("K" : String).data
          ((envLines (some "A=1\nK=old\nB=2")).get ⟨1, by decide⟩) then
        envNewLine "K" "v"
      else (envLines (some "A=1\nK=old\nB=2")).get ⟨1, by decide⟩) ∧
    ((envOut2 (some "A=1") "K" "v").take (envLines (some "A=1")).length =
        envLines (some "A=1") ∧
      (envOut2 (some "A=1") "K" "v").getLast? = some (envNewLine "K" "v")) ∧
    quote_env_value "v" = "\"" ++ "v" ++ "\"" :=
  ⟨(C8_upsert_amended (some "A=1\nK=old\nB=2") "K" "v").2.1 1 (by decide),
   (C8_upsert_amended (some "A=1") "K" "v").2.2.2.1 (by decide),
   (C8_upsert_amended (some "A=1") "K" "v").2.2.2.2 (by decide)⟩

/-! ### Product extraction (`_strip_html`, `_extract_float`,
`_parse_procity`, `_extract_products`)

`_strip_html` removes every match of `<[^>]+>` and strips; the
substitution scan is modeled with a fuel parameter bounded by the input
length (each step consumes at least one character, so the fuel never runs
out).  `_extract_float` matches `\d+(?:\.\d+)?` after comma removal; the
source passes the matched token to `float()` — the claims here do not
depend on float arithmetic, so the model keeps the matched decimal token
itself (ASCII digits). -/

/-- Try to match `[^>]+>` right after a `<`; returns the tail after the
closing `>`. -/
def chopTag (l : List Char) : Option (List Char) :=
  match l.takeWhile (fun c => c != '>') with
  | [] => none
  | run =>
    match l.drop run.length with
    | '>' :: tail => some tail
    | _ => none

/-- The `re.sub(r"<[^>]+>", "", ...)` scan. -/
def stripHtmlGo : Nat → List Char → List Char
  | 0, l => l
  | _ + 1, [] => []
  | fuel + 1, c :: rest =>
    if c = '<' then
      match chopTag rest with
      | some tail => stripHtmlGo fuel tail
      | none => c :: stripHtmlGo fuel rest
    else c :: stripHtmlGo fuel rest

/-- `_strip_html`. -/
def strip_html (t : Option String) : String :=
  pyStrip ⟨stripHtmlGo (t.getD "").data.length (t.getD "").data⟩

/-- The token matched by `\d+(?:\.\d+)?` at a digit position (greedy). -/
def numTokenAt (l : List Char) : List Char :=
  let intPart := l.takeWhile (fun c => c.isDigit)
  match l.drop intPart.length with
  | '.' :: d :: rest2 =>
    if d.isDigit then intPart ++ '.' :: d :: rest2.takeWhile (fun c => c.isDigit)
    else intPart
  | _ => intPart

/-- Leftmost match of `\d+(?:\.\d+)?`. -/
def findNumToken : List Char → Option (List Char)
  | [] => none
  | c :: rest => if c.isDigit then some (numTokenAt (c :: rest)) else findNumToken rest

/-- `_extract_float`, as the matched decimal token (see section note). -/
def extract_float (v : Option String) : Option String :=
  match v with
  | none => none
  | some s =>
    let text := pyStripList (s.data.filter (fun c => c != ','))
    if text = [] then none
    else
      match findNumToken text with
      | some tok => some ⟨tok⟩
      | none => none

/-- `re.split(r"\s+")` with empty pieces dropped. -/
def splitWsAux (cur : List Char) : List Char → List (List Char)
  | [] => if cur = [] then [] else [cur.reverse]
  | c :: rest =>
    if isPySpace c then
      if cur = [] then splitWsAux [] rest else cur.reverse :: splitWsAux [] rest
    else splitWsAux (c :: cur) rest

/-- `_parse_procity`: split a "province city" string into two fields.
(The stripped text is non-empty in the one-word branch, so the empty
pieces list is unreachable there; the model returns `(none, none)`.) -/
def parse_procity (v : Option String) : Option String × Option String :=
  let text := pyStrip (v.getD "")
  if text = "" then (none, none)
  else
    match splitWsAux [] text.data with
    | p0 :: p1 :: _ => (some ⟨p0⟩, some ⟨p1⟩)
    | [p0] => (some ⟨p0⟩, none)
    | [] => (none, none)

/-- `x or y` over optional strings, keeping the result optional. -/
def pyOrOpt (a b : Option String) : Option String :=
  match a with
  | some s => if s = "" then b else some s
  | none => b

/-- `s or None` after rendering to a string. -/
def strToOpt (s : String) : Option String :=
  if s = "" then none else some s

/-- The normalized output record (`ProductRecord`). -/
structure Product where
  keyword : String
  item_id : Option String
  title : String
  price : Option String
  original_price : Option String
  sales_or_commit : Option String
  shop : Option String
  province : Option String
  city : Option String
  category : Option String
  detail_url : String
  raw_item : RawItem
deriving DecidableEq, Repr

/-- The record built for one surviving item. -/
def buildProduct (keyword : String) (src : RawItem) (title durl : String) : Product :=
  { keyword := keyword
    item_id := strToOpt (pyStrip (pyOrStr src.item_id src.itemId))
    title := title
    price := extract_float src.price
    original_price :=
      extract_float (pyOrOpt src.origPrice (pyOrOpt src.priceBeforeCoupon src.originalPrice))
    sales_or_commit := strToOpt (pyStrip (pyOrStr src.realSales src.sales))
    shop := strToOpt (pyStrip (pyOrStr src.nick src.shopName))
    province := (parse_procity src.procity).1
    city := (parse_procity src.procity).2
    category := strToOpt (pyStrip (src.category.getD ""))
    detail_url := durl
    raw_item := src }

/-- `_extract_products`; `none` entries model non-dict members of
`itemsArray`, which the source skips. -/
def extract_products (items : List (Option RawItem)) (keyword : String) : List Product :=
  match items with
  | [] => []
  | none :: rest => extract_products rest keyword
  | some src :: rest =>
    let title := strip_html src.title
    if title = "" then extract_products rest keyword
    else
      match normalize_detail_url src with
      | none => extract_products rest keyword
      | some durl => buildProduct keyword src title durl :: extract_products rest keyword

/-- C1 counterexample: a page whose two items both resolve to the
canonical URL for item id 1 yields two records for that URL — the claimed
within-page dedup ("exactly one record for that URL") does not happen. -/
theorem C1_dedup_counterexample :
    (extract_products
        [some { title := some "A", item_id := some "1" },
         some { title := some "B", item_id := some "1" }] "salmon").countP
      (fun p => p.detail_url == "https://item.taobao.com/item.htm?id=1") = 2 ∧
    ¬ ((extract_products
        [some { title := some "A", item_id := some "1" },
         some { title := some "B", item_id := some "1" }] "salmon").countP
      (fun p => p.detail_url == "https://item.taobao.com/item.htm?id=1") = 1) := by
  exact ⟨by decide, by decide⟩

/-- C1 amended: no within-page deduplication is performed — for every
parsed page and URL, the number of emitted records carrying that detail
URL equals the number of items that survive the title/URL filters and
resolve to it, duplicates included (uniqueness is left to the external
storage upsert keyed by detail URL). -/
theorem C1_no_dedup_amended (items : List (Option RawItem)) (keyword u : String) :
    (extract_products items keyword).countP (fun p => p.detail_url == u) =
      items.countP (fun oit =>
        match oit with
        | some it => strip_html it.title != "" && (normalize_detail_url it == some u)
        | none => false) := by
  induction items with
  | nil => rfl
  | cons oit rest ih =>
    cases oit with
    | none =>
      show (extract_products rest keyword).countP _ = _
      rw [ih, List.countP_cons]
      simp
    | some src =>
      show (if strip_html src.title = "" then extract_products rest keyword
        else match normalize_detail_url src with
          | none => extract_products rest keyword
          | some durl =>
            buildProduct keyword src (strip_html src.title) durl ::
              extract_products rest keyword).countP _ = _
      by_cases ht : strip_html src.title = ""
      · rw [if_pos ht, ih, List.countP_cons]
        simp [ht]
      · rw [if_neg ht]
        cases hn : normalize_detail_url src with
        | none =>
          rw [ih, List.countP_cons]
          simp [ht, hn]
        | some durl =>
          rw [List.countP_cons, List.countP_cons, ih]
          have hd1 : (buildProduct keyword src (strip_html src.title) durl).detail_url = durl :=
            rfl
          by_cases hd : durl = u
          · simp [hd1, hd, hn, ht]
            rfl
          · simp [hd1, hd, hn, ht]

/-! ### The crawl loop of `run` (token retry and interactive renewal)

The keyword/page/attempt loops of `run` are embedded as a state machine
driven by an environment trace: each `_fetch_page` call consumes the next
`FetchOutcome`, and each interactive renewal (`_try_refresh_cookie`
with reason `token_expired`) consumes the next renewal result.  The
`TokenExpiredError` handler re-reads `_m_h5_tk` from the session jar
(`_extract_token_from_cookie_value`), retries once on a fresh token, and
otherwise escalates to the browser renewal guarded by the
`browser_refreshed_once` flag.  The state carries two instrumentation
counters: `renewCount` (interactive renewals performed) and `escCount`
(times control reached the escalation test, i.e. a `TokenExpiredError`
that the local jar refresh did not absorb).  After a `continue` on the
second attempt the source leaves `products` unbound (a latent bug); the
model treats that page as empty, which does not affect the renewal
budget. -/

/-- Outcome of one `_fetch_page` call as seen by the retry loop. -/
inductive FetchOutcome where
  | ok (count : Nat)
  | tokenExpired (jarValue : String)
  | otherError
deriving DecidableEq, Repr

/-- Environment trace: fetch outcomes and browser-renewal results
(`none` = renewal returned no cookie), consumed by index; an exhausted
trace behaves as failures. -/
structure CrawlEnv where
  fetches : List FetchOutcome
  renewals : List (Option String)

def envFetch (env : CrawlEnv) (i : Nat) : FetchOutcome :=
  env.fetches.getD i .otherError

def envRenew (env : CrawlEnv) (i : Nat) : Option String :=
  (env.renewals.getD i none)

structure CrawlState where
  token : String
  browserRefreshedOnce : Bool
  written : Nat
  fetchIdx : Nat
  renewIdx : Nat
  renewCount : Nat
  escCount : Nat
deriving DecidableEq, Repr

/-- Result of one iteration of `for attempt in range(2)`: the loop either
breaks with a product count or continues to the next attempt. -/
inductive AttemptStep where
  | done (count : Nat) (s : CrawlState)
  | retry (s : CrawlState)

/-- The escalation point: `if not browser_refreshed_once: ...`. -/
def escalate (env : CrawlEnv) (s : CrawlState) : AttemptStep :=
  if s.browserRefreshedOnce then
    .done 0 { s with escCount := s.escCount + 1 }
  else
    match envRenew env s.renewIdx with
    | some cookie =>
      .retry { s with escCount := s.escCount + 1, renewIdx := s.renewIdx + 1, renewCount := s.renewCount + 1, browserRefreshedOnce := true, token := (extract_token_from_cookie cookie).getD s.token }
    | none =>
      .done 0 { s with escCount := s.escCount + 1, renewIdx := s.renewIdx + 1, renewCount := s.renewCount + 1, browserRefreshedOnce := true }

/-- One attempt of the `for attempt in range(2)` loop. -/
def attemptOnce (env : CrawlEnv) (s : CrawlState) (attempt : Nat) : AttemptStep :=
  match envFetch env s.fetchIdx with
  | .ok n => .done n { s with fetchIdx := s.fetchIdx + 1 }
  | .otherError => .done 0 { s with fetchIdx := s.fetchIdx + 1 }
  | .tokenExpired jarValue =>
    match extract_token_from_cookie_value jarValue with
    | some refreshed =>
      if refreshed ≠ s.token ∧ attempt = 0 then
        .retry { s with fetchIdx := s.fetchIdx + 1, token := refreshed }
      else escalate env { s with fetchIdx := s.fetchIdx + 1 }
    | none => escalate env { s with fetchIdx := s.fetchIdx + 1 }

/-- The whole two-attempt loop for one page. -/
def runAttempts (env : CrawlEnv) (s : CrawlState) : Nat × CrawlState :=
  match attemptOnce env s 0 with
  | .done n s1 => (n, s1)
  | .retry s1 =>
    match attemptOnce env s1 1 with
    | .done n s2 => (n, s2)
    | .retry s2 => (0, s2)

/-- The `for page in range(1, max_pages + 1)` loop for one keyword; the
Bool reports the early `return written` on reaching `max_items`. -/
def runPages (env : CrawlEnv) (maxItems : Nat) : Nat → CrawlState → CrawlState × Bool
  | 0, s => (s, false)
  | p + 1, s =>
    if maxItems ≤ s.written then (s, true)
    else
      match runAttempts env s with
      | (0, s1) => (s1, false)
      | (n + 1, s1) =>
        if maxItems < s1.written + (n + 1) then ({ s1 with written := maxItems }, true)
        else runPages env maxItems p { s1 with written := s1.written + (n + 1) }

/-- The `for keyword in keywords` loop. -/
def runKeywords (env : CrawlEnv) (maxItems pages : Nat) : Nat → CrawlState → CrawlState
  | 0, s => s
  | k + 1, s =>
    match runPages env maxItems pages s with
    | (s1, true) => s1
    | (s1, false) => runKeywords env maxItems pages k s1

/-- The crawl portion of `run`, from an initial token. -/
def crawl_run (env : CrawlEnv) (numKeywords pages maxItems : Nat)
    (initialToken : String) : CrawlState :=
  runKeywords env maxItems pages numKeywords
    { token := initialToken, browserRefreshedOnce := false, written := 0,
      fetchIdx := 0, renewIdx := 0, renewCount := 0, escCount := 0 }

/-- The renewal-budget invariant. -/
def CrawlInv (s : CrawlState) : Prop :=
  s.renewCount ≤ 1 ∧ s.browserRefreshedOnce = (s.renewCount == 1) ∧
    (1 ≤ s.escCount → s.renewCount = 1)

/-- The state carried by an `AttemptStep`. -/
def AttemptStep.state : AttemptStep → CrawlState
  | .done _ s => s
  | .retry s => s

theorem escalate_inv (env : CrawlEnv) (s : CrawlState) (h : CrawlInv s) :
    CrawlInv (escalate env s).state := by
  obtain ⟨h1, h2, _h3⟩ := h
  unfold escalate
  by_cases hflag : s.browserRefreshedOnce = true
  · rw [if_pos hflag]
    have hb : (s.renewCount == 1) = true := by rw [← h2]; exact hflag
    have hcount : s.renewCount = 1 := by simpa using hb
    exact ⟨h1, h2, fun _ => hcount⟩
  · have hb : (s.renewCount == 1) = false := by
      rw [← h2]
      exact Bool.eq_false_iff.mpr hflag
    have hne : s.renewCount ≠ 1 := by simpa using hb
    have hcount : s.renewCount = 0 := by omega
    rw [if_neg hflag]
    cases envRenew env s.renewIdx with
    | some cookie =>
      refine ⟨?_, ?_, fun _ => ?_⟩
      · show s.renewCount + 1 ≤ 1
        omega
      · show true = (s.renewCount + 1 == 1)
        rw [hcount]
        rfl
      · show s.renewCount + 1 = 1
        omega
    | none =>
      refine ⟨?_, ?_, fun _ => ?_⟩
      · show s.renewCount + 1 ≤ 1
        omega
      · show true = (s.renewCount + 1 == 1)
        rw [hcount]
        rfl
      · show s.renewCount + 1 = 1
        omega

theorem attemptOnce_inv (env : CrawlEnv) (s : CrawlState) (a : Nat) (h : CrawlInv s) :
    CrawlInv (attemptOnce env s a).state := by
  unfold attemptOnce
  cases envFetch env s.fetchIdx with
  | ok n => exact ⟨h.1, h.2.1, h.2.2⟩
  | otherError => exact ⟨h.1, h.2.1, h.2.2⟩
  | tokenExpired jarValue =>
    dsimp only
    cases extract_token_from_cookie_value jarValue with
    | some refreshed =>
      dsimp only
      by_cases hc : refreshed ≠ s.token ∧ a = 0
      · rw [if_pos hc]
        exact ⟨h.1, h.2.1, h.2.2⟩
      · rw [if_neg hc]
        exact escalate_inv env _ ⟨h.1, h.2.1, h.2.2⟩
    | none =>
      dsimp only
      exact escalate_inv env _ ⟨h.1, h.2.1, h.2.2⟩

theorem runAttempts_inv (env : CrawlEnv) (s : CrawlState) (h : CrawlInv s) :
    CrawlInv (runAttempts env s).2 := by
  have h0 := attemptOnce_inv env s 0 h
  unfold runAttempts
  cases ha : attemptOnce env s 0 with
  | done n s1 =>
    rw [ha] at h0
    exact h0
  | retry s1 =>
    rw [ha] at h0
    dsimp only
    have h1 := attemptOnce_inv env s1 1 h0
    cases hb : attemptOnce env s1 1 with
    | done n s2 =>
      rw [hb] at h1
      exact h1
    | retry s2 =>
      rw [hb] at h1
      exact h1

theorem runPages_inv (env : CrawlEnv) (maxItems : Nat) (p : Nat) (s : CrawlState)
    (h : CrawlInv s) : CrawlInv (runPages env maxItems p s).1 := by
  induction p generalizing s with
  | zero => exact h
  | succ p ih =>
    unfold runPages
    by_cases hw : maxItems ≤ s.written
    · rw [if_pos hw]
      exact h
    · rw [if_neg hw]
      have hra := runAttempts_inv env s h
      cases hr : runAttempts env s with
      | mk n s1 =>
        rw [hr] at hra
        cases n with
        | zero => exact hra
        | succ n =>
          dsimp only
          by_cases hlim : maxItems < s1.written + (n + 1)
          · rw [if_pos hlim]
            exact hra
          · rw [if_neg hlim]
            exact ih _ ⟨hra.1, hra.2.1, hra.2.2⟩

theorem runKeywords_inv (env : CrawlEnv) (maxItems pages : Nat) (k : Nat) (s : CrawlState)
    (h : CrawlInv s) : CrawlInv (runKeywords env maxItems pages k s) := by
  induction k generalizing s with
  | zero => exact h
  | succ k ih =>
    unfold runKeywords
    have hp := runPages_inv env maxItems pages s h
    cases hr : runPages env maxItems pages s with
    | mk s1 stop =>
      rw [hr] at hp
      cases stop with
      | true => exact hp
      | false =>
        dsimp only
        exact ih _ hp

/-- C2: over every environment trace and loop geometry, the interactive
browser renewal is invoked at most once per run — never a second time,
even when further TokenExpired conditions occur on later pages or
keywords — and it is invoked (exactly once) whenever at least one
TokenExpired condition survives the local cookie-jar refresh. -/
theorem C2_interactive_renewal_once (env : CrawlEnv)
    (numKeywords pages maxItems : Nat) (initialToken : String) :
    (crawl_run env numKeywords pages maxItems initialToken).renewCount ≤ 1 ∧
    (1 ≤ (crawl_run env numKeywords pages maxItems initialToken).escCount →
      (crawl_run env numKeywords pages maxItems initialToken).renewCount = 1) := by
  have h : CrawlInv (crawl_run env numKeywords pages maxItems initialToken) := by
    unfold crawl_run
    refine runKeywords_inv env maxItems pages numKeywords _ ?_
    exact ⟨show (0 : Nat) ≤ 1 by omega, rfl,
      fun hc => absurd (show (1 : Nat) ≤ 0 from hc) (by omega)⟩
  exact ⟨h.1, h.2.2⟩

/-- Witness for C2: a trace with a TokenExpired page in each of two
keywords; the local jar never yields a token, the one renewal attempt
fails, and the renewal is still invoked exactly once. -/
theorem C2_interactive_renewal_once_witness :
    (crawl_run
        { fetches := [.tokenExpired "", .tokenExpired ""], renewals := [none] }
        2 1 10 "tok0").renewCount ≤ 1 ∧
    (crawl_run
        { fetches := [.tokenExpired "", .tokenExpired ""], renewals := [none] }
        2 1 10 "tok0").renewCount = 1 :=
  ⟨(C2_interactive_renewal_once
      { fetches := [.tokenExpired "", .tokenExpired ""], renewals := [none] }
      2 1 10 "tok0").1,
   (C2_interactive_renewal_once
      { fetches := [.tokenExpired "", .tokenExpired ""], renewals := [none] }
      2 1 10 "tok0").2 (by decide)⟩

/-! ### Request signing (`_make_sign`)

Source (`crawl_taobao.py`):

```
def _make_sign(token: str, timestamp_ms: int, app_key: str, payload: str) -> str:
    raw = f"\x7btoken\x7d&\x7btimestamp_ms\x7d&\x7bapp_key\x7d&\x7bpayload\x7d"
    return hashlib.md5(raw.encode("utf-8")).hexdigest()
```

MD5 is modeled over `Nat` with explicit `% 2^32` masking: padding, 16
little-endian message words per 64-byte chunk, the 64 rounds with the
standard sine-derived constants and shift table, and the little-endian
lowercase hex digest.  The timestamp is `int(time.time() * 1000)`, always
non-negative, so it is modeled as `Nat` rendered with `Nat.repr`. -/

def mask32 (x : Nat) : Nat := x % 4294967296

def rotl (r x : Nat) : Nat := mask32 (mask32 (x <<< r) ||| (x >>> (32 - r)))

def wF (b c d : Nat) : Nat := (b &&& c) ||| ((b ^^^ 4294967295) &&& d)

def wG (b c d : Nat) : Nat := (d &&& b) ||| ((d ^^^ 4294967295) &&& c)

def wH (b c d : Nat) : Nat := b ^^^ c ^^^ d

def wI (b c d : Nat) : Nat := c ^^^ (b ||| (d ^^^ 4294967295))

def md5K : List Nat :=
  [0xd76aa478, 0xe8c7b756, 0x242070db, 0xc1bdceee,
   0xf57c0faf, 0x4787c62a, 0xa8304613, 0xfd469501,
   0x698098d8, 0x8b44f7af, 0xffff5bb1, 0x895cd7be,
   0x6b901122, 0xfd987193, 0xa679438e, 0x49b40821,
   0xf61e2562, 0xc040b340, 0x265e5a51, 0xe9b6c7aa,
   0xd62f105d, 0x02441453, 0xd8a1e681, 0xe7d3fbc8,
   0x21e1cde6, 0xc33707d6, 0xf4d50d87, 0x455a14ed,
   0xa9e3e905, 0xfcefa3f8, 0x676f02d9, 0x8d2a4c8a,
   0xfffa3942, 0x8771f681, 0x6d9d6122, 0xfde5380c,
   0xa4beea44, 0x4bdecfa9, 0xf6bb4b60, 0xbebfbc70,
   0x289b7ec6, 0xeaa127fa, 0xd4ef3085, 0x04881d05,
   0xd9d4d039, 0xe6db99e5, 0x1fa27cf8, 0xc4ac5665,
   0xf4292244, 0x432aff97, 0xab9423a7, 0xfc93a039,
   0x655b59c3, 0x8f0ccc92, 0xffeff47d, 0x85845dd1,
   0x6fa87e4f, 0xfe2ce6e0, 0xa3014314, 0x4e0811a1,
   0xf7537e82, 0xbd3af235, 0x2ad7d2bb, 0xeb86d391]

def md5S : List Nat :=
  [7, 12, 17, 22, 7, 12, 17, 22, 7, 12, 17, 22, 7, 12, 17, 22,
   5, 9, 14, 20, 5, 9, 14, 20, 5, 9, 14, 20, 5, 9, 14, 20,
   4, 11, 16, 23, 4, 11, 16, 23, 4, 11, 16, 23, 4, 11, 16, 23,
   6, 10, 15, 21, 6, 10, 15, 21, 6, 10, 15, 21, 6, 10, 15, 21]

/-- `k` rendered as `n` little-endian bytes. -/
def bytesLE : Nat → Nat → List Nat
  | 0, _ => []
  | n + 1, k => (k % 256) :: bytesLE n (k / 256)

/-- 4-byte little-endian words of a chunk. -/
def wordsLE : List Nat → List Nat
  | b0 :: b1 :: b2 :: b3 :: rest =>
    (b0 + 256 * b1 + 65536 * b2 + 16777216 * b3) :: wordsLE rest
  | _ => []

/-- The 64 MD5 rounds (fuel-driven from `i = 0`). -/
def md5Rounds : Nat → Nat → Nat × Nat × Nat × Nat → List Nat → Nat × Nat × Nat × Nat
  | 0, _, st, _ => st
  | fuel + 1, i, st, m =>
    let b := st.2.1
    let c := st.2.2.1
    let d := st.2.2.2
    let fg : Nat × Nat :=
      if i < 16 then (wF b c d, i)
      else if i < 32 then (wG b c d, (5 * i + 1) % 16)
      else if i < 48 then (wH b c d, (3 * i + 5) % 16)
      else (wI b c d, (7 * i) % 16)
    let fv := mask32 (fg.1 + st.1 + md5K.getD i 0 + m.getD fg.2 0)
    md5Rounds fuel (i + 1) (d, mask32 (b + rotl (md5S.getD i 0) fv), b, c) m

/-- One 64-byte chunk. -/
def md5Process (st : Nat × Nat × Nat × Nat) (chunk : List Nat) : Nat × Nat × Nat × Nat :=
  (mask32 (st.1 + (md5Rounds 64 0 st (wordsLE chunk)).1),
   mask32 (st.2.1 + (md5Rounds 64 0 st (wordsLE chunk)).2.1),
   mask32 (st.2.2.1 + (md5Rounds 64 0 st (wordsLE chunk)).2.2.1),
   mask32 (st.2.2.2 + (md5Rounds 64 0 st (wordsLE chunk)).2.2.2))

/-- All chunks (fuel = number of 64-byte chunks). -/
def md5Chunks : Nat → Nat × Nat × Nat × Nat → List Nat → Nat × Nat × Nat × Nat
  | 0, st, _ => st
  | n + 1, st, bytes => md5Chunks n (md5Process st (bytes.take 64)) (bytes.drop 64)

/-- MD5 padding: `0x80`, zeros to 56 mod 64, 8-byte LE bit length. -/
def md5Pad (msg : List Nat) : List Nat :=
  msg ++ 128 :: (List.replicate ((120 - ((msg.length + 1) % 64)) % 64) 0 ++
    bytesLE 8 ((8 * msg.length) % 18446744073709551616))

def md5Init : Nat × Nat × Nat × Nat :=
  (0x67452301, 0xefcdab89, 0x98badcfe, 0x10325476)

def md5Digest (msg : List Nat) : Nat × Nat × Nat × Nat :=
  md5Chunks ((md5Pad msg).length / 64) md5Init (md5Pad msg)

/-- The 128-bit digest as one `Nat` in little-endian byte significance
(its 16 LE bytes are exactly the hexdigest's byte sequence). -/
def md5Nat (msg : List Nat) : Nat :=
  (md5Digest msg).1 + 4294967296 * (md5Digest msg).2.1 +
    18446744073709551616 * (md5Digest msg).2.2.1 +
    79228162514264337593543950336 * (md5Digest msg).2.2.2

/-- Two lowercase hex characters of one byte. -/
def hexByte (b : Nat) : List Char :=
  [Nat.digitChar (b / 16 % 16), Nat.digitChar (b % 16)]

/-- `hexdigest()` of a 128-bit digest value. -/
def hexOfDigest (n : Nat) : String :=
  ⟨((bytesLE 16 n).map hexByte).flatten⟩

/-- UTF-8 encoding of one character. -/
def utf8Char (c : Char) : List Nat :=
  if c.toNat < 128 then [c.toNat]
  else if c.toNat < 2048 then
    [192 ||| (c.toNat >>> 6), 128 ||| (c.toNat &&& 63)]
  else if c.toNat < 65536 then
    [224 ||| (c.toNat >>> 12), 128 ||| ((c.toNat >>> 6) &&& 63), 128 ||| (c.toNat &&& 63)]
  else
    [240 ||| (c.toNat >>> 18), 128 ||| ((c.toNat >>> 12) &&& 63),
     128 ||| ((c.toNat >>> 6) &&& 63), 128 ||| (c.toNat &&& 63)]

/-- `str.encode("utf-8")`. -/
def utf8Bytes (s : String) : List Nat :=
  (s.data.map utf8Char).flatten

/-- `raw = f"{token}&{timestamp_ms}&{app_key}&{payload}"`. -/
def sign_raw (token : String) (timestamp_ms : Nat) (app_key payload : String) : String :=
  token ++ "&" ++ Nat.repr timestamp_ms ++ "&" ++ app_key ++ "&" ++ payload

/-- `_make_sign`. -/
def make_sign (token : String) (timestamp_ms : Nat) (app_key payload : String) : String :=
  hexOfDigest (md5Nat (utf8Bytes (sign_raw token timestamp_ms app_key payload)))

theorem mask32_lt (x : Nat) : mask32 x < 4294967296 :=
  Nat.mod_lt _ (by decide)

/-- Word-size bound on a hash state. -/
def st4lt (st : Nat × Nat × Nat × Nat) : Prop :=
  st.1 < 4294967296 ∧ st.2.1 < 4294967296 ∧ st.2.2.1 < 4294967296 ∧ st.2.2.2 < 4294967296

theorem md5Process_lt (st : Nat × Nat × Nat × Nat) (chunk : List Nat) :
    st4lt (md5Process st chunk) :=
  ⟨mask32_lt _, mask32_lt _, mask32_lt _, mask32_lt _⟩

theorem md5Chunks_lt (fuel : Nat) :
    ∀ (st : Nat × Nat × Nat × Nat) (bytes : List Nat), st4lt st →
      st4lt (md5Chunks fuel st bytes) := by
  induction fuel with
  | zero => exact fun st bytes h => h
  | succ n ih => exact fun st bytes _ => ih _ _ (md5Process_lt st (bytes.take 64))

theorem md5Nat_lt (msg : List Nat) :
    md5Nat msg < 340282366920938463463374607431768211456 := by
  have h : st4lt (md5Digest msg) :=
    md5Chunks_lt _ _ _ (by exact ⟨by decide, by decide, by decide, by decide⟩)
  obtain ⟨h1, h2, h3, h4⟩ := h
  unfold md5Nat
  omega

/-- C9 counterexample: the signature is an MD5 value, hence lives in a
finite (128-bit) codomain while tokens range over the infinite `String`
type, so two distinct tokens with identical other arguments must share a
signature — "changing any single argument changes the output" is false. -/
theorem C9_sensitivity_counterexample :
    ∃ t1 t2 : String, t1 ≠ t2 ∧
      make_sign t1 0 "12574478" "" = make_sign t2 0 "12574478" "" := by
  obtain ⟨t1, t2, hne, heq⟩ :=
    Finite.exists_ne_map_eq_of_infinite
      (fun t : String =>
        (⟨md5Nat (utf8Bytes (sign_raw t 0 "12574478" "")), md5Nat_lt _⟩ :
          Fin 340282366920938463463374607431768211456))
  refine ⟨t1, t2, hne, ?_⟩
  have hval : md5Nat (utf8Bytes (sign_raw t1 0 "12574478" "")) =
      md5Nat (utf8Bytes (sign_raw t2 0 "12574478" "")) := congrArg Fin.val heq
  unfold make_sign
  rw [hval]

/-! What *is* provable about `_make_sign`'s input sensitivity: the raw
preimage string `f"{token}&{timestamp_ms}&{app_key}&{payload}"` is
injective in each argument separately, and the function is deterministic
and total.  For that we need injectivity of `Nat.repr`, proved through a
reference decimal-digit function. -/

/-- Decimal digits of `n`, most significant first. -/
def decDigits (n : Nat) : List Char :=
  if h : n < 10 then [Nat.digitChar n]
  else decDigits (n / 10) ++ [Nat.digitChar (n % 10)]
termination_by n
decreasing_by
  exact Nat.div_lt_self (by omega) (by omega)

theorem decDigits_ne_nil (n : Nat) : decDigits n ≠ [] := by
  unfold decDigits
  split
  · simp
  · simp

theorem toDigitsCore_eq_decDigits (fuel : Nat) :
    ∀ (n : Nat) (acc : List Char), n < fuel →
      Nat.toDigitsCore 10 fuel n acc = decDigits n ++ acc := by
  induction fuel with
  | zero => intro n acc h; omega
  | succ f ih =>
    intro n acc h
    by_cases hd : n / 10 = 0
    · have hn : n < 10 := by omega
      simp only [Nat.toDigitsCore, hd, if_true]
      rw [decDigits, dif_pos hn, Nat.mod_eq_of_lt hn]
      rfl
    · simp only [Nat.toDigitsCore, hd, if_false]
      rw [ih (n / 10) _ (by omega)]
      conv_rhs => rw [decDigits]
      rw [dif_neg (show ¬n < 10 by omega)]
      simp [List.append_assoc]

theorem digitChar_inj_of_lt (a b : Nat) (ha : a < 10) (hb : b < 10)
    (h : Nat.digitChar a = Nat.digitChar b) : a = b := by
  have key : ∀ (x y : Fin 10), Nat.digitChar x.val = Nat.digitChar y.val → x.val = y.val := by
    decide
  exact key ⟨a, ha⟩ ⟨b, hb⟩ h

theorem decDigits_inj (m : Nat) :
    ∀ n, decDigits m = decDigits n → m = n := by
  induction m using Nat.strong_induction_on with
  | _ m ih =>
    intro n h
    unfold decDigits at h
    by_cases hm : m < 10 <;> by_cases hn : n < 10
    · rw [dif_pos hm, dif_pos hn] at h
      exact digitChar_inj_of_lt m n hm hn (List.cons.injEq .. ▸ h).1
    · rw [dif_pos hm, dif_neg hn] at h
      have hle := congrArg List.length h
      have hlen : 1 ≤ (decDigits (n / 10)).length :=
        List.length_pos.mpr (decDigits_ne_nil _)
      simp only [List.length_cons, List.length_append, List.length_nil] at hle
      omega
    · rw [dif_neg hm, dif_pos hn] at h
      have hle := congrArg List.length h
      have hlen : 1 ≤ (decDigits (m / 10)).length :=
        List.length_pos.mpr (decDigits_ne_nil _)
      simp only [List.length_cons, List.length_append, List.length_nil] at hle
      omega
    · rw [dif_neg hm, dif_neg hn] at h
      obtain ⟨h1, h2⟩ := List.append_inj' h rfl
      have hq : m / 10 = n / 10 :=
        ih (m / 10) (Nat.div_lt_self (by omega) (by omega)) (n / 10) h1
      have hr : m % 10 = n % 10 :=
        digitChar_inj_of_lt _ _ (Nat.mod_lt _ (by omega)) (Nat.mod_lt _ (by omega))
          (List.cons.injEq .. ▸ h2).1
      omega

theorem natRepr_inj (m n : Nat) (h : Nat.repr m = Nat.repr n) : m = n := by
  have h' : (Nat.toDigits 10 m).asString = (Nat.toDigits 10 n).asString := h
  have h2 : Nat.toDigits 10 m = Nat.toDigits 10 n := List.asString_inj.mp h'
  have hm : Nat.toDigits 10 m = decDigits m ++ [] :=
    toDigitsCore_eq_decDigits (m + 1) m [] (Nat.lt_succ_self m)
  have hn : Nat.toDigits 10 n = decDigits n ++ [] :=
    toDigitsCore_eq_decDigits (n + 1) n [] (Nat.lt_succ_self n)
  rw [hm, hn, List.append_nil, List.append_nil] at h2
  exact decDigits_inj m n h2

/-- C9 amended: `_make_sign` is deterministic and total (a pure function of
its four arguments), and the signed preimage string
`f"{token}&{timestamp_ms}&{app_key}&{payload}"` is injective in each
argument separately — changing any one argument while fixing the others
always changes the MD5 *input*.  (That the MD5 *output* also changes is
false in general: see the collision counterexample.) -/
theorem C9_sign_amended :
    (∀ (t : String) (ts : Nat) (k p : String),
      make_sign t ts k p = hexOfDigest (md5Nat (utf8Bytes (sign_raw t ts k p)))) ∧
    (∀ (t1 t2 : String) (ts : Nat) (k p : String), t1 ≠ t2 →
      sign_raw t1 ts k p ≠ sign_raw t2 ts k p) ∧
    (∀ (t : String) (ts1 ts2 : Nat) (k p : String), ts1 ≠ ts2 →
      sign_raw t ts1 k p ≠ sign_raw t ts2 k p) ∧
    (∀ (t : String) (ts : Nat) (k1 k2 p : String), k1 ≠ k2 →
      sign_raw t ts k1 p ≠ sign_raw t ts k2 p) ∧
    (∀ (t : String) (ts : Nat) (k p1 p2 : String), p1 ≠ p2 →
      sign_raw t ts k p1 ≠ sign_raw t ts k p2) := by
  refine ⟨fun t ts k p => rfl, ?_, ?_, ?_, ?_⟩
  · intro t1 t2 ts k p hne heq
    apply hne
    have hd := congrArg String.data heq
    simp only [sign_raw, String.data_append] at hd
    have := List.append_cancel_right (List.append_cancel_right
      (List.append_cancel_right (List.append_cancel_right
        (List.append_cancel_right (List.append_cancel_right hd)))))
    exact String.toList_inj.mp this
  · intro t ts1 ts2 k p hne heq
    apply hne
    have hd := congrArg String.data heq
    simp only [sign_raw, String.data_append, List.append_assoc] at hd
    have h1 := List.append_cancel_left hd
    have h2 := List.append_cancel_left h1
    have h3 : (Nat.repr ts1).data = (Nat.repr ts2).data :=
      List.append_cancel_right h2
    exact natRepr_inj ts1 ts2 (String.toList_inj.mp h3)
  · intro t ts k1 k2 p hne heq
    apply hne
    have hd := congrArg String.data heq
    simp only [sign_raw, String.data_append, List.append_assoc] at hd
    have h1 := List.append_cancel_left (List.append_cancel_left
      (List.append_cancel_left (List.append_cancel_left hd)))
    have h2 : k1.data = k2.data := List.append_cancel_right h1
    exact String.toList_inj.mp h2
  · intro t ts k p1 p2 hne heq
    apply hne
    have hd := congrArg String.data heq
    simp only [sign_raw, String.data_append, List.append_assoc] at hd
    exact String.toList_inj.mp
      (List.append_cancel_left (List.append_cancel_left
        (List.append_cancel_left (List.append_cancel_left
          (List.append_cancel_left (List.append_cancel_left hd))))))

theorem C9_sign_amended_witness :
    make_sign "tok" 5 "12574478" "pl" =
      hexOfDigest (md5Nat (utf8Bytes (sign_raw "tok" 5 "12574478" "pl"))) ∧
    sign_raw "a" 5 "k" "p" ≠ sign_raw "b" 5 "k" "p" ∧
    sign_raw "a" 5 "k" "p" ≠ sign_raw "a" 6 "k" "p" ∧
    sign_raw "a" 5 "k" "p" ≠ sign_raw "a" 5 "j" "p" ∧
    sign_raw "a" 5 "k" "p" ≠ sign_raw "a" 5 "k" "q" :=
  ⟨C9_sign_amended.1 "tok" 5 "12574478" "pl",
   C9_sign_amended.2.1 "a" "b" 5 "k" "p" (by decide),
   C9_sign_amended.2.2.1 "a" 5 6 "k" "p" (by decide),
   C9_sign_amended.2.2.2.1 "a" 5 "k" "j" "p" (by decide),
   C9_sign_amended.2.2.2.2 "a" 5 "k" "p" "q" (by decide)⟩

end FishIntel
